import Mathlib
/-!
Verification of the incremental story/docs indexer
(`StoryIndexGenerator.ts`, package `core-server`).

The development is a shallow embedding of the generator: entries, the
per-specifier cache and the generator state are plain data; the external
collaborators (pluggable story indexers, the file system, the `.mdx`
analyzer, the title/name derivation helpers and the v7 sorter) are
parameters of the model, mirroring the interface boundary of the source.
Node's `path` helpers (`resolve`, `relative`, `dirname`, `join`) and
`slash`/`normalizeStoryPath` are modelled for POSIX-style paths without
`..` segments, which is what the generator manipulates.
-/
deriving instance DecidableEq for Except
/-- Model of string prefix testing on character lists (kernel-reducible
replacement for `String.startsWith`, used to model JS `String.startsWith`). -/
def strPrefix : List Char → List Char → Bool
  | [], _ => true
  | _ :: _, [] => false
  | a :: as, b :: bs => a = b && strPrefix as bs
/-- Model of JS `fileName.startsWith(prefix)`. -/
def strStartsWith (s pre : String) : Bool := strPrefix pre.data s.data
/-- Model of JS `String.endsWith`, used for extension tests. -/
def strEndsWith (s suf : String) : Bool := strPrefix suf.data.reverse s.data.reverse
/-- Model of node `path.relative(workingDir, absolutePath)` for the clean
absolute paths the generator works with. -/
def relativize (workingDir absolutePath : String) : String :=
  if strStartsWith absolutePath (workingDir ++ "/") then
    absolutePath.drop (workingDir.length + 1)
  else absolutePath
/-- Model of node `path.resolve(workingDir, p)` (plus `slash`) for paths
without parent-directory segments. -/
def resolvePath (workingDir p : String) : String :=
  if strStartsWith p "./" then workingDir ++ "/" ++ p.drop 2
  else if strStartsWith p "/" then p
  else workingDir ++ "/" ++ p
/-- Model of `normalizeStoryPath` from `core-common`: prefix a relative
path with `./` when it is not already explicitly relative. -/
def normalizeStoryPath (p : String) : String :=
  if strStartsWith p "." then p else "./" ++ p
/-- Model of node `path.dirname`. -/
def dirnameOf (p : String) : String :=
  let r := p.data.reverse
  if r.contains '/' then String.mk (((r.dropWhile (fun c => c ≠ '/')).drop 1).reverse)
  else "."
/-- Model of node `path.join(a, b)` for a relative `b` without `..`
segments. -/
def joinPath (a b : String) : String :=
  let b2 := if strStartsWith b "./" then b.drop 2 else b
  if a = "." then b2 else a ++ "/" ++ b2
def AUTODOCS_TAG : String := "autodocs"
def STORIES_MDX_TAG : String := "stories-mdx"
/-- A story index entry (`StoryIndexEntry`): `type: 'story'`. -/
structure StoryEntry where
  id : String
  title : String
  name : String
  importPath : String
  tags : List String
deriving Repr, DecidableEq
/-- A docs index entry (`DocsIndexEntry`): `type: 'docs'`, with its
`storiesImports` dependency list. -/
structure DocsEntry where
  id : String
  title : String
  name : String
  importPath : String
  storiesImports : List String
  tags : List String
deriving Repr, DecidableEq
/-- `IndexEntry = StoryIndexEntry | DocsIndexEntry`, discriminated in the
source by the `type` string tag. -/
inductive IndexEntry where
  | story (e : StoryEntry)
  | docs (e : DocsEntry)
deriving Repr, DecidableEq
def IndexEntry.id : IndexEntry → String
  | .story e => e.id
  | .docs e => e.id
def IndexEntry.title : IndexEntry → String
  | .story e => e.title
  | .docs e => e.title
def IndexEntry.name : IndexEntry → String
  | .story e => e.name
  | .docs e => e.name
def IndexEntry.importPath : IndexEntry → String
  | .story e => e.importPath
  | .docs e => e.importPath
def IndexEntry.isDocsB : IndexEntry → Bool
  | .story _ => false
  | .docs _ => true
/-- `isMdxEntry`: a docs entry came from a real `.mdx` file iff it carries
neither the `autodocs` nor the `stories-mdx` tag. -/
def isMdxEntry (e : DocsEntry) : Bool :=
  !(e.tags.contains AUTODOCS_TAG) && !(e.tags.contains STORIES_MDX_TAG)
/-- `IndexingError(message, [paths])` from `./IndexingError` (the stack
trace is dropped by the model). -/
structure IndexingError where
  message : String
  paths : List String
deriving Repr, DecidableEq
/-- The three `logger.warn` sites of `chooseDuplicate`, with the data each
message interpolates. -/
inductive DupWarning where
  | storyOverDefaultDocs (title name : String)
  | storyOverDocs (title worseDescriptor worseName : String)
  | twoMdxDocs (title name : String)
deriving Repr, DecidableEq
/-- `DocsOptions.autodocs : boolean | 'tag'`. -/
inductive AutodocsConfig where
  | enabled
  | disabled
  | tagOnly
deriving Repr, DecidableEq
structure DocsConfig where
  defaultName : String
  autodocs : AutodocsConfig
deriving Repr, DecidableEq
/-- The constructor options the generator actually reads in the modelled
code paths (`configDir` and the indexer list live in the externals). -/
structure GenOptions where
  workingDir : String
  storiesV2Compatibility : Bool
  storyStoreV7 : Bool
  docs : DocsConfig
deriving Repr, DecidableEq
/-- `chooseDuplicate(firstEntry, secondEntry)`: resolves two entries that
share one id. The result is the surviving entry together with the
warnings logged on that path, or the `IndexingError` thrown. -/
def chooseDuplicate (opts : GenOptions) (firstEntry secondEntry : IndexEntry) :
    Except IndexingError (IndexEntry × List DupWarning) :=
  let firstIsBetter :=
    match secondEntry, firstEntry with
    | .story _, _ => false
    | .docs sd, .docs fd => !(isMdxEntry sd && !(isMdxEntry fd))
    | .docs _, .story _ => true
  let betterEntry := if firstIsBetter then firstEntry else secondEntry
  let worseEntry := if firstIsBetter then secondEntry else firstEntry
  match worseEntry with
  | .story _ =>
      .error { message := "Duplicate stories with id: " ++ firstEntry.id,
               paths := [firstEntry.importPath, secondEntry.importPath] }
  | .docs wd =>
    match betterEntry with
    | .story bs =>
        let worseDescriptor :=
          if isMdxEntry wd then "component docs page"
          else "automatically generated docs page"
        if bs.name = opts.docs.defaultName then
          .ok (IndexEntry.story bs, [DupWarning.storyOverDefaultDocs bs.title bs.name])
        else
          .ok (IndexEntry.story bs, [DupWarning.storyOverDocs bs.title worseDescriptor wd.name])
    | .docs bd =>
      if isMdxEntry bd then
        let warns := if isMdxEntry wd then [DupWarning.twoMdxDocs bd.title bd.name] else []
        if wd.tags.contains AUTODOCS_TAG && !(opts.docs.autodocs == AutodocsConfig.enabled) then
          .error { message := "You created a component docs page for '" ++ wd.title ++
                     "', but also tagged the CSF file with 'autodocs'. This is probably a mistake.",
                   paths := [bd.importPath, wd.importPath] }
        else .ok (IndexEntry.docs bd, warns)
      else
        .ok (IndexEntry.docs { bd with
               storiesImports := bd.storiesImports ++ wd.importPath :: wd.storiesImports }, [])
/-- Precedence rank used by the duplicate resolver: stories outrank MDX
docs entries, which outrank autogenerated docs entries. -/
def duplicatePrecedence : IndexEntry → Nat
  | .story _ => 2
  | .docs d => if isMdxEntry d then 1 else 0
/-- Sample options used by the concrete witnesses and counterexamples. -/
def cexOpts : GenOptions :=
  { workingDir := "/w", storiesV2Compatibility := false, storyStoreV7 := true,
    docs := { defaultName := "Docs", autodocs := AutodocsConfig.disabled } }
/-- Autogenerated (non-MDX) docs entry for title T living in `a.stories.js`. -/
def cexDocsA : DocsEntry :=
  { id := "t--docs", title := "T", name := "Docs", importPath := "./a.stories.js",
    storiesImports := [], tags := ["autodocs", "docs"] }
/-- Autogenerated (non-MDX) docs entry with the same id living in `b.stories.js`. -/
def cexDocsB : DocsEntry :=
  { id := "t--docs", title := "T", name := "Docs", importPath := "./b.stories.js",
    storiesImports := [], tags := ["autodocs", "docs"] }
/-- Concrete story entry used by witnesses. -/
def cexStoryA : StoryEntry :=
  { id := "t--a", title := "T", name := "A", importPath := "./a.stories.js",
    tags := ["story"] }
/-- `toId` from `@storybook/csf`, modelled at its interface: a
deterministic injective-enough derivation of the id from (title, name). -/
def toId (title name : String) : String := title ++ "--" ++ name
/-- The cache entry state for one matched path:
`false | StoriesCacheEntry | DocsCacheEntry | ErrorEntry`. -/
inductive CacheEntry where
  | unprocessed
  | stories (entries : List IndexEntry) (dependents : List String)
  | docs (e : DocsEntry)
  | error (err : IndexingError)
deriving Repr, DecidableEq
/-- JS truthiness of a cache entry (`false` vs object). -/
def truthy : CacheEntry → Bool
  | CacheEntry.unprocessed => false
  | _ => true
/-- JS `String(cacheEntry)` as used in the `Unexpected dependency` message. -/
def cacheEntryToString : CacheEntry → String
  | CacheEntry.unprocessed => "false"
  | _ => "[object Object]"
/-- `SpecifierStoriesCache`: an insertion-ordered record from absolute path
to cache entry (JS object key semantics for non-index keys). -/
abbrev SpecCache := List (String × CacheEntry)
/-- `specifierToCache`: insertion-ordered map keyed by specifier identity,
modelled as a number per specifier. -/
abbrev Caches := List (Nat × SpecCache)
def getSlot (cache : SpecCache) (p : String) : Option CacheEntry :=
  (cache.find? fun kv => kv.1 = p).map Prod.snd
/-- JS object assignment `cache[p] = e`: overwrite in place when the key
exists (keys are unique in a JS object), append otherwise. -/
def setSlot : SpecCache → String → CacheEntry → SpecCache
  | [], p, e => [(p, e)]
  | kv :: t, p, e => if kv.1 = p then (p, e) :: t else kv :: setSlot t p e
/-- JS `delete cache[p]`: remove the key from the record. -/
def delSlot : SpecCache → String → SpecCache
  | [], _ => []
  | kv :: t, p => if kv.1 = p then delSlot t p else kv :: delSlot t p
def getCache (caches : Caches) (sid : Nat) : SpecCache :=
  ((caches.find? fun sc => sc.1 = sid).map Prod.snd).getD []
def setCacheSlot (caches : Caches) (sid : Nat) (p : String) (e : CacheEntry) : Caches :=
  caches.map fun sc => if sc.1 = sid then (sc.1, setSlot sc.2 p e) else sc
def deleteCacheSlot (caches : Caches) (sid : Nat) (p : String) : Caches :=
  caches.map fun sc => if sc.1 = sid then (sc.1, delSlot sc.2 p) else sc
/-- One story reported by a pluggable indexer (`csf.stories[i]`, with the
`parameters?.docsOnly` flag it carries). -/
structure CsfStory where
  id : String
  name : String
  tags : Option (List String)
  docsOnly : Bool
deriving Repr, DecidableEq
/-- The structured description a story indexer returns (`csf.meta.title`,
`csf.meta.tags`, `csf.stories`). -/
structure CsfFile where
  title : String
  metaTags : Option (List String)
  stories : List CsfStory
deriving Repr, DecidableEq
/-- One `StoryIndexer` plugin: a path test (the `test` regex) and the
indexing function (with `makeTitle` absorbed: the specifier id is passed). -/
structure StoryIndexerModel where
  test : String → Bool
  indexer : String → Nat → Except String CsfFile
/-- The result of the external `analyze` over a docs file's content
(`result.of` is `ofModule` here). -/
structure AnalyzeResult where
  title : Option String
  ofModule : Option String
  name : Option String
  isTemplate : Bool
  imports : List String
  tags : Option (List String)
deriving Repr, DecidableEq
/-- The external collaborators of the generator, fixed at construction:
story indexers, the file system read, the docs analyzer, the title
derivation (`userOrAutoTitleFromSpecifier`), `autoName`, and the v7
sorter (`sortStoriesV7` composed with the externally-read sort parameter). -/
structure Externals where
  storyIndexers : List StoryIndexerModel
  readFile : String → Except String String
  analyze : String → Except String AnalyzeResult
  userOrAutoTitle : String → Nat → Option String → String
  autoNameFor : String → String → String → String
  storySort : List IndexEntry → List String → List IndexEntry
/-- `makeAbsolute(otherImport, normalizedPath, workingDir)`. -/
def makeAbsolute (otherImport normalizedPath workingDir : String) : String :=
  if strStartsWith otherImport "." then
    resolvePath workingDir (normalizeStoryPath (joinPath (dirnameOf normalizedPath) otherImport))
  else otherImport
/-- `isDocsMdx`: matches `.mdx` not preceded by `.stories`. -/
def isDocsMdx (p : String) : Bool := strEndsWith p ".mdx" && !(strEndsWith p ".stories.mdx")
/-- The story entries a stories file contributes: stories not flagged
`docsOnly`, each tagged with its own tags (or the component tags) plus
`story`. -/
def storyEntriesFromCsf (importPath : String) (csf : CsfFile) : List IndexEntry :=
  let componentTags := csf.metaTags.getD []
  csf.stories.filterMap fun st =>
    if st.docsOnly then none
    else some (IndexEntry.story
      { id := st.id, title := csf.title, name := st.name,
        importPath := importPath, tags := st.tags.getD componentTags ++ ["story"] })
def componentTagsOf (csf : CsfFile) : List String := csf.metaTags.getD []
/-- `autodocs === true || (autodocs === 'tag' && componentAutodocs)`. -/
def autodocsOptedIn (opts : GenOptions) (componentTags : List String) : Bool :=
  opts.docs.autodocs == AutodocsConfig.enabled ||
    (opts.docs.autodocs == AutodocsConfig.tagOnly && componentTags.contains AUTODOCS_TAG)
/-- The source's condition for synthesizing a docs entry: the indexer
reported a non-empty `csf.stories` list, and the file is MDX-born or
autodocs applies. -/
def addDocsEntry (opts : GenOptions) (csf : CsfFile) : Bool :=
  csf.stories.length != 0 &&
    ((componentTagsOf csf).contains STORIES_MDX_TAG || autodocsOptedIn opts (componentTagsOf csf))
/-- The synthesized docs entry `unshift`-ed by `extractStories`. -/
def docsEntryForCsf (opts : GenOptions) (importPath : String) (csf : CsfFile) : DocsEntry :=
  let componentTags := componentTagsOf csf
  let componentAutodocs := componentTags.contains AUTODOCS_TAG
  let optedIn := autodocsOptedIn opts componentTags
  let dname := opts.docs.defaultName
  { id := toId csf.title dname, title := csf.title, name := dname, importPath := importPath,
    storiesImports := [],
    tags := componentTags ++ ["docs"] ++
      (if optedIn && !componentAutodocs then [AUTODOCS_TAG] else []) }
/-- Lines 259-291 of `extractStories`: entry list construction from the
indexer result. -/
def extractStoriesFromCsf (opts : GenOptions) (importPath : String) (csf : CsfFile) :
    List IndexEntry :=
  if addDocsEntry opts csf then
    IndexEntry.docs (docsEntryForCsf opts importPath csf) :: storyEntriesFromCsf importPath csf
  else storyEntriesFromCsf importPath csf
/-- `extractStories(specifier, absolutePath)`: select an indexer, run it,
and build the stories cache entry (fresh empty `dependents`). -/
def extractStories (opts : GenOptions) (ext : Externals) (sid : Nat) (absolutePath : String) :
    Except String CacheEntry :=
  let relativePath := relativize opts.workingDir absolutePath
  let importPath := normalizeStoryPath relativePath
  match ext.storyIndexers.find? fun ix => ix.test absolutePath with
  | none => Except.error ("No matching story indexer found for " ++ absolutePath)
  | some ix =>
    match ix.indexer absolutePath sid with
    | Except.error msg => Except.error msg
    | Except.ok csf => Except.ok (CacheEntry.stories (extractStoriesFromCsf opts importPath csf) [])
/-- The key filter of `findDependencies`: a cached file name matches when
some import is a string prefix of it. -/
def importMatched (absoluteImports : List String) (fn : String) : Bool :=
  absoluteImports.any fun imp => strStartsWith fn imp

/-- The loop body of `findDependencies`: a matched key must hold a stories
entry; anything else throws `Unexpected dependency`. -/
def depScanStep (sid : Nat) (cache : SpecCache) (acc : List (Nat × String)) (fn : String) :
    Except String (List (Nat × String)) :=
  match getSlot cache fn with
  | some (CacheEntry.stories _ _) => Except.ok (acc ++ [(sid, fn)])
  | some e => Except.error ("Unexpected dependency: " ++ cacheEntryToString e)
  | none => Except.error "Unexpected dependency: undefined"

/-- One specifier cache scan of `findDependencies`: keys that start with
some import are collected and must be stories entries. -/
def scanCacheForDeps (sid : Nat) (cache : SpecCache) (absoluteImports : List String) :
    Except String (List (Nat × String)) :=
  let fileNames := (cache.map Prod.fst).filter (importMatched absoluteImports)
  fileNames.foldlM (depScanStep sid cache) []
/-- `findDependencies(absoluteImports)`: scan every specifier's cache; the
result is the list of (specifier, path) keys of the matched stories
entries, or the error thrown at the first non-stories match. -/
def findDependencies (caches : Caches) (absoluteImports : List String) :
    Except String (List (Nat × String)) :=
  caches.foldlM (fun acc sc =>
    (scanCacheForDeps sc.1 sc.2 absoluteImports).map fun l => acc ++ l) []
/-- `dep.dependents.push(absolutePath)` on one cache. -/
def pushInCache (cache : SpecCache) (fileName dependent : String) : SpecCache :=
  match getSlot cache fileName with
  | some (CacheEntry.stories es ds) =>
      setSlot cache fileName (CacheEntry.stories es (ds ++ [dependent]))
  | _ => cache
/-- `dep.dependents.push(absolutePath)` through a cache key. -/
def pushDependent (caches : Caches) (k : Nat × String) (dependent : String) : Caches :=
  caches.map fun sc => if sc.1 = k.1 then (sc.1, pushInCache sc.2 k.2 dependent) else sc
/-- The `entries` list of the stories entry a dependency key points at. -/
def entriesAt (caches : Caches) (k : Nat × String) : List IndexEntry :=
  match getSlot (getCache caches k.1) k.2 with
  | some (CacheEntry.stories es _) => es
  | _ => []
/-- The `dependents` list of the stories entry a dependency key points at. -/
def dependentsAt (caches : Caches) (k : Nat × String) : List String :=
  match getSlot (getCache caches k.1) k.2 with
  | some (CacheEntry.stories _ ds) => ds
  | _ => []
/-- The import list of a docs file resolved to absolute paths. -/
def docsAbsoluteImports (opts : GenOptions) (normalizedPath : String)
    (imports : List String) : List String :=
  imports.map fun p => makeAbsolute p normalizedPath opts.workingDir
/-- The `<Meta of={...} />` companion search of `extractDocs`: the last
dependency whose first non-docs entry's resolved path extends the
resolved `of` path wins; a dependency with entries but no non-docs entry
crashes (`first` is `undefined` in the source). -/
def findCsfEntry (opts : GenOptions) (caches : Caches) (deps : List (Nat × String))
    (absoluteOf : String) : Except String (Option IndexEntry) :=
  deps.foldlM (fun acc k =>
    let es := entriesAt caches k
    if 0 < es.length then
      match es.find? fun e => !(e.isDocsB) with
      | none => Except.error "TypeError: Cannot read properties of undefined (reading importPath)"
      | some fe =>
        if strStartsWith (resolvePath opts.workingDir fe.importPath) absoluteOf then
          Except.ok (some fe)
        else Except.ok acc
    else Except.ok acc) none
/-- `dependencies.map((dep) => dep.entries[0].importPath)`; crashes when a
dependency has no entries (`entries[0]` is `undefined` in the source). -/
def firstImportPaths (caches : Caches) (deps : List (Nat × String)) :
    Except String (List String) :=
  deps.foldlM (fun acc k =>
    match entriesAt caches k with
    | [] => Except.error "TypeError: Cannot read properties of undefined (reading importPath)"
    | e :: _ => Except.ok (acc ++ [e.importPath])) []
/-- `extractDocs(specifier, absolutePath)`. It may mutate the caches (the
`dependents` pushes) and returns the new caches together with the
produced cache entry or the thrown message; pushes performed before a
later throw persist, as in the source. -/
def extractDocs (opts : GenOptions) (ext : Externals) (caches : Caches) (sid : Nat)
    (absolutePath : String) : Caches × Except String CacheEntry :=
  if !opts.storyStoreV7 then
    (caches, Except.error "You cannot use `.mdx` files without using `storyStoreV7`.")
  else
    let relativePath := relativize opts.workingDir absolutePath
    let normalizedPath := normalizeStoryPath relativePath
    let importPath := normalizedPath
    match ext.readFile absolutePath with
    | Except.error msg => (caches, Except.error msg)
    | Except.ok content =>
      match ext.analyze content with
      | Except.error msg => (caches, Except.error msg)
      | Except.ok result =>
        if result.isTemplate then (caches, Except.ok CacheEntry.unprocessed)
        else
          let absoluteImports := docsAbsoluteImports opts normalizedPath result.imports
          match findDependencies caches absoluteImports with
          | Except.error msg => (caches, Except.error msg)
          | Except.ok deps =>
            let csfEntryE :=
              match result.ofModule with
              | none => Except.ok (none : Option IndexEntry)
              | some ofPath =>
                findCsfEntry opts caches deps (makeAbsolute ofPath normalizedPath opts.workingDir)
            match csfEntryE with
            | Except.error msg => (caches, Except.error msg)
            | Except.ok csfEntry =>
              if result.ofModule.isSome && csfEntry.isNone then
                (caches, Except.error ("Could not find CSF file at path \"" ++
                  result.ofModule.getD "" ++ "\" referenced by of=\x7b\x7d in docs file \"" ++
                  relativePath ++ "\"."))
              else
                let caches1 := deps.foldl (fun cs k => pushDependent cs k absolutePath) caches
                let title :=
                  match csfEntry with
                  | some fe =>
                    if fe.title = "" then ext.userOrAutoTitle importPath sid result.title
                    else fe.title
                  | none => ext.userOrAutoTitle importPath sid result.title
                let defaultName := opts.docs.defaultName
                let nameFallback :=
                  match csfEntry with
                  | some fe => ext.autoNameFor importPath fe.importPath defaultName
                  | none => defaultName
                let dname :=
                  match result.name with
                  | some n => if n = "" then nameFallback else n
                  | none => nameFallback
                match firstImportPaths caches1 deps with
                | Except.error msg => (caches1, Except.error msg)
                | Except.ok storiesImports =>
                  (caches1, Except.ok (CacheEntry.docs
                    { id := toId title dname, title := title,
                      name := dname, importPath := importPath, storiesImports := storiesImports,
                      tags := result.tags.getD [] ++ ["docs"] }))
/-- Conversion of an updater outcome into the stored cache entry: a throw
becomes an `Error` entry carrying the relativized path. -/
def slotResult (opts : GenOptions) (absolutePath : String) : Except String CacheEntry → CacheEntry
  | Except.ok e => e
  | Except.error msg =>
      CacheEntry.error
        { message := msg,
          paths := ["./" ++ relativize opts.workingDir absolutePath] }
/-- An updater as `updateExtracted` invokes it; it may also mutate the
caches (only `extractDocs` does). -/
abbrev UpdaterFn := Nat → String → CacheEntry → Caches → Caches × Except String CacheEntry
/-- One `(specifier, path)` visit of an `updateExtracted` sweep, counting
updater invocations. -/
def sweepSlot (opts : GenOptions) (upd : UpdaterFn) (overwrite : Bool) (sid : Nat)
    (p : String) (st : Caches × Nat) : Caches × Nat :=
  match getSlot (getCache st.1 sid) p with
  | none => st
  | some old =>
    if truthy old && !overwrite then st
    else
      let r := upd sid p old st.1
      (setCacheSlot r.1 sid p (slotResult opts p r.2), st.2 + 1)
/-- `updateExtracted(updater, overwrite)` as one deterministic sweep (the
cooperative concurrency of the source interleaves slot-local writes, see
the concurrency notes: each task writes only its own slot). -/
def updateExtracted (opts : GenOptions) (upd : UpdaterFn) (overwrite : Bool)
    (caches : Caches) : Caches × Nat :=
  (caches.map Prod.fst).foldl (fun st sid =>
    ((getCache st.1 sid).map Prod.fst).foldl
      (fun st2 p => sweepSlot opts upd overwrite sid p st2) st)
    (caches, 0)
/-- The pass-1 updater: skip (keep `false`) for docs-format files, run the
story extractor otherwise. -/
def updaterPass1 (opts : GenOptions) (ext : Externals) : UpdaterFn := fun sid p _old caches =>
  if isDocsMdx p then (caches, Except.ok CacheEntry.unprocessed)
  else (caches, extractStories opts ext sid p)
/-- The pass-2 updater: the docs extractor. -/
def updaterPass2 (opts : GenOptions) (ext : Externals) : UpdaterFn := fun sid p _old caches =>
  extractDocs opts ext caches sid p
/-- An item of the flattened `ensureExtracted` result:
`IndexEntry | ErrorEntry`. -/
inductive FlatItem where
  | entry (e : IndexEntry)
  | err (e : IndexingError)
deriving Repr, DecidableEq
/-- The flattening at the end of `ensureExtracted`. -/
def flattenCaches (caches : Caches) : List FlatItem :=
  caches.flatMap fun sc => sc.2.flatMap fun kv =>
    match kv.2 with
    | CacheEntry.unprocessed => []
    | CacheEntry.docs d => [FlatItem.entry (IndexEntry.docs d)]
    | CacheEntry.error e => [FlatItem.err e]
    | CacheEntry.stories es _ => es.map FlatItem.entry
/-- `ensureExtracted()`: the primary sweep, then the secondary sweep, then
the flattened entry list. Also returns the number of updater invocations. -/
def ensureExtracted (opts : GenOptions) (ext : Externals) (caches : Caches) :
    Caches × List FlatItem × Nat :=
  let r1 := updateExtracted opts (updaterPass1 opts ext) false caches
  let r2 := updateExtracted opts (updaterPass2 opts ext) false r1.1
  (r2.1, flattenCaches r2.1, r1.2 + r2.2)
def lookupEntry (l : List (String × IndexEntry)) (k : String) : Option IndexEntry :=
  (l.find? fun kv => kv.1 = k).map Prod.snd
/-- JS object assignment on the id-keyed `indexEntries` record. -/
def setEntry (l : List (String × IndexEntry)) (k : String) (e : IndexEntry) :
    List (String × IndexEntry) :=
  if l.any fun kv => kv.1 = k then l.map fun kv => if kv.1 = k then (k, e) else kv
  else l ++ [(k, e)]
/-- The loop body of the duplicate-resolution fold of `getIndex`: on an
id collision run `chooseDuplicate`; a throw is collected into the error
list and leaves the existing entry in place. -/
def dedupStep (opts : GenOptions) (st : List (String × IndexEntry) × List IndexingError)
    (entry : IndexEntry) : List (String × IndexEntry) × List IndexingError :=
  match lookupEntry st.1 entry.id with
  | some existing =>
    match chooseDuplicate opts existing entry with
    | Except.ok (winner, _warns) => (setEntry st.1 entry.id winner, st.2)
    | Except.error e => (st.1, st.2 ++ [e])
  | none => (st.1 ++ [(entry.id, entry)], st.2)

/-- The duplicate-resolution fold of `getIndex`: build the id-keyed entry
record, collecting every `chooseDuplicate` throw instead of stopping. -/
def buildIndexEntries (opts : GenOptions) (l : List IndexEntry) :
    List (String × IndexEntry) × List IndexingError :=
  l.foldl (dedupStep opts) ([], [])
/-- The legacy compatibility shape of a story entry. -/
structure V2Compat where
  base : StoryEntry
  kind : String
  story : String
  compatId : String
  docsOnly : Bool
  fileName : String
deriving Repr, DecidableEq
/-- A final index entry: modern shape or v2-compat shape. -/
inductive OutEntry where
  | modern (e : IndexEntry)
  | v2 (e : V2Compat)
deriving Repr, DecidableEq
/-- The output index `{ v: 4, entries }`. -/
structure StoryIndex where
  v : Nat
  entries : List (String × OutEntry)
deriving Repr, DecidableEq
/-- `storyFileNames()`: all cache keys in specifier order. -/
def storyFileNames (caches : Caches) : List String :=
  caches.flatMap fun sc => sc.2.map Prod.fst
/-- `sortStories`: in v7 mode apply the external sorter (sort parameter
reading absorbed into it), then rebuild the id-keyed record. -/
def sortStories (opts : GenOptions) (ext : Externals) (caches : Caches)
    (entries : List (String × IndexEntry)) : List (String × IndexEntry) :=
  let sortableStories := entries.map Prod.snd
  let sorted :=
    if opts.storyStoreV7 then ext.storySort sortableStories (storyFileNames caches)
    else sortableStories
  sorted.foldl (fun acc it => setEntry acc it.id it) []
/-- `titleToStoryCount` of the compatibility transform. -/
def titleCount (sorted : List (String × IndexEntry)) (t : String) : Nat :=
  (sorted.filter fun kv => kv.2.title = t).length
/-- The `storiesV2Compatibility` transform: drop docs entries, wrap story
entries in the legacy shape. -/
def v2compat (sorted : List (String × IndexEntry)) : List (String × OutEntry) :=
  sorted.foldl (fun acc kv =>
    match kv.2 with
    | IndexEntry.docs _ => acc
    | IndexEntry.story e =>
      acc ++ [(kv.1, OutEntry.v2
        { base := e, kind := e.title, story := e.name,
          compatId := e.id, docsOnly := titleCount sorted e.title == 1 && e.name == "Page",
          fileName := e.importPath })]) []
/-- The error `getIndex` memoizes and throws (`MultipleIndexingError`). -/
inductive GenError where
  | multiple (errs : List IndexingError)
deriving Repr, DecidableEq
/-- The generator's mutable state: the caches and the two memo fields. -/
structure GenState where
  caches : Caches
  lastIndex : Option StoryIndex
  lastError : Option GenError
deriving Repr, DecidableEq
/-- The body of `getIndex` past the memo checks: extract, aggregate error
entries (with precedence), resolve duplicates collecting all conflicts,
sort, apply the compat transform. -/
def computeIndex (opts : GenOptions) (ext : Externals) (caches : Caches) :
    Except GenError StoryIndex × Caches × Nat :=
  let r := ensureExtracted opts ext caches
  let storiesList := r.2.1
  let errorEntries := storiesList.filterMap fun f =>
    match f with | FlatItem.err e => some e | _ => none
  if !errorEntries.isEmpty then (Except.error (GenError.multiple errorEntries), r.1, r.2.2)
  else
    let b := buildIndexEntries opts (storiesList.filterMap fun f =>
      match f with | FlatItem.entry e => some e | _ => none)
    if !b.2.isEmpty then (Except.error (GenError.multiple b.2), r.1, r.2.2)
    else
      let sorted := sortStories opts ext r.1 b.1
      let compat :=
        if opts.storiesV2Compatibility then v2compat sorted
        else sorted.map fun kv => (kv.1, OutEntry.modern kv.2)
      (Except.ok { v := 4, entries := compat }, r.1, r.2.2)
/-- `getIndex()`: memoized index and memoized error short-circuit;
otherwise compute, memoizing the index on success and the error on
failure. The third component counts updater invocations (0 means neither
sweep ran). -/
def getIndex (opts : GenOptions) (ext : Externals) (s : GenState) :
    Except GenError StoryIndex × GenState × Nat :=
  match s.lastIndex with
  | some idx => (Except.ok idx, s, 0)
  | none =>
    match s.lastError with
    | some e => (Except.error e, s, 0)
    | none =>
      let r := computeIndex opts ext s.caches
      match r.1 with
      | Except.ok idx =>
        (Except.ok idx, { caches := r.2.1, lastIndex := some idx, lastError := none }, r.2.2)
      | Except.error ge =>
        (Except.error ge, { caches := r.2.1, lastIndex := none, lastError := some ge }, r.2.2)
/-- JS `list.splice(list.indexOf(x), 1)`: removes the first occurrence of
`x`, or the LAST element when `x` is absent (`indexOf` returns -1). -/
def spliceOne (l : List String) (x : String) : List String :=
  if l.contains x then l.erase x else l.dropLast
/-- `dep.dependents.splice(dep.dependents.indexOf(absolutePath), 1)`. -/
def spliceDependent (caches : Caches) (k : Nat × String) (dependent : String) : Caches :=
  caches.map fun sc =>
    if sc.1 = k.1 then
      (sc.1,
        match getSlot sc.2 k.2 with
        | some (CacheEntry.stories es ds) =>
            setSlot sc.2 k.2 (CacheEntry.stories es (spliceOne ds dependent))
        | _ => sc.2)
    else sc
/-- `invalidate(specifier, importPath, removed)`. A stories entry resets
all its recorded dependents across every cache; a removed docs entry is
unlinked from its dependencies' `dependents` lists (via a fresh
`findDependencies` over its `storiesImports`, whose throw propagates and
then skips the memo reset) and its slot is deleted; otherwise the slot is
reset. On normal return both memo fields are cleared. -/
def invalidate (opts : GenOptions) (s : GenState) (sid : Nat) (importPath : String)
    (removed : Bool) : Except String Unit × GenState :=
  let absolutePath := resolvePath opts.workingDir importPath
  let cache := getCache s.caches sid
  let cacheEntry := getSlot cache absolutePath
  let caches1 :=
    match cacheEntry with
    | some (CacheEntry.stories _ dependents) =>
      s.caches.map fun sc =>
        (sc.1, dependents.foldl (fun c dep =>
          match getSlot c dep with
          | some e => if truthy e then setSlot c dep CacheEntry.unprocessed else c
          | none => c) sc.2)
    | _ => s.caches
  if removed then
    match cacheEntry with
    | some (CacheEntry.docs d) =>
      let absoluteImports := d.storiesImports.map (resolvePath opts.workingDir)
      match findDependencies caches1 absoluteImports with
      | Except.error msg => (Except.error msg, { s with caches := caches1 })
      | Except.ok deps =>
        let caches2 := deps.foldl (fun cs k => spliceDependent cs k absolutePath) caches1
        (Except.ok (), { caches := deleteCacheSlot caches2 sid absolutePath,
                         lastIndex := none, lastError := none })
    | _ =>
      (Except.ok (), { caches := deleteCacheSlot caches1 sid absolutePath,
                       lastIndex := none, lastError := none })
  else
    (Except.ok (), { caches := setCacheSlot caches1 sid absolutePath CacheEntry.unprocessed,
                     lastIndex := none, lastError := none })
/-- A one-story CSF description with the given title, story id and name. -/
def mkCsf (t i n : String) : CsfFile :=
  { title := t, metaTags := none,
    stories := [{ id := i, name := n, tags := none, docsOnly := false }] }
/-- A story indexer matching `*.stories.js` files; maps `s1.stories.js` to
title S1 and every other match to title S2. -/
def traceIndexer : StoryIndexerModel :=
  { test := fun p => strEndsWith p ".stories.js",
    indexer := fun p _ =>
      if p = "/w/s1.stories.js" then Except.ok (mkCsf "S1" "s1--a" "A")
      else Except.ok (mkCsf "S2" "s2--a" "A") }
/-- An analyzer result with the given import list and nothing else. -/
def mkAnalyze (imps : List String) : AnalyzeResult :=
  { title := none, ofModule := none, name := none, isTemplate := false,
    imports := imps, tags := none }
/-- Concrete externals: the docs file `/w/d.mdx` imports `./s1` and `./s2`. -/
def ext6 : Externals :=
  { storyIndexers := [traceIndexer], readFile := fun p => Except.ok p,
    analyze := fun c => Except.ok (mkAnalyze (if c = "/w/d.mdx" then ["./s1", "./s2"] else [])),
    userOrAutoTitle := fun _ _ t => t.getD "D", autoNameFor := fun _ _ d => d,
    storySort := fun l _ => l }
/-- Concrete externals: the docs file `/w/d.mdx` imports only `./s1`. -/
def ext7 : Externals :=
  { ext6 with
    analyze := fun c => Except.ok (mkAnalyze (if c = "/w/d.mdx" then ["./s1"] else [])) }
/-- The generator state right after construction with no matched files. -/
def emptyState : GenState := { caches := [], lastIndex := none, lastError := none }
/-- The memoized state an empty generator reaches after one `getIndex`. -/
def c1s1 : GenState :=
  { caches := [], lastIndex := some { v := 4, entries := [] }, lastError := none }
/-- Options with the v7 store disabled, for the C10 witness. -/
def cexOptsNoV7 : GenOptions := { cexOpts with storyStoreV7 := false }
/-- Options with autodocs globally enabled, for the C8 counterexample. -/
def cexOptsAutodocs : GenOptions :=
  { cexOpts with docs := { defaultName := "Docs", autodocs := AutodocsConfig.enabled } }
/-- A CSF description whose only story is `docsOnly`. -/
def cexCsfDocsOnly : CsfFile :=
  { title := "T", metaTags := none,
    stories := [{ id := "t--a", name := "A", tags := none, docsOnly := true }] }

/-- Is this optional cache entry a stories entry? -/
def isStoriesOpt : Option CacheEntry → Bool
  | some (CacheEntry.stories _ _) => true
  | _ => false

/-- The (specifier, path) keys `findDependencies` matches: every cached
key some import is a prefix of, in scan order. -/
def matchedKeys (caches : Caches) (absoluteImports : List String) : List (Nat × String) :=
  caches.flatMap fun sc =>
    ((sc.2.map Prod.fst).filter (importMatched absoluteImports)).map fun fn => (sc.1, fn)

/-- All (specifier, path) keys present in the caches. -/
def allCacheKeys (caches : Caches) : List (Nat × String) :=
  caches.flatMap fun sc => sc.2.map fun kv => (sc.1, kv.1)

/-- The dependency keys `extractDocs` resolves for a docs file,
recomputed from the same inputs (empty when any stage fails). -/
def depKeysOf (opts : GenOptions) (ext : Externals) (caches : Caches) (absolutePath : String) :
    List (Nat × String) :=
  match ext.readFile absolutePath with
  | Except.error _ => []
  | Except.ok content =>
    match ext.analyze content with
    | Except.error _ => []
    | Except.ok result =>
      let normalizedPath := normalizeStoryPath (relativize opts.workingDir absolutePath)
      match findDependencies caches (docsAbsoluteImports opts normalizedPath result.imports) with
      | Except.ok deps => deps
      | Except.error _ => []

/-- Initial state for the C3 witness: two files no indexer matches. -/
def c3state : GenState :=
  { caches := [(0, [("/w/x.foo", CacheEntry.unprocessed), ("/w/y.foo", CacheEntry.unprocessed)])],
    lastIndex := none, lastError := none }

/-- Extraction error produced for `/w/x.foo`. -/
def c3err1 : IndexingError :=
  { message := "No matching story indexer found for /w/x.foo", paths := ["./x.foo"] }

/-- Extraction error produced for `/w/y.foo`. -/
def c3err2 : IndexingError :=
  { message := "No matching story indexer found for /w/y.foo", paths := ["./y.foo"] }

/-- The story entry extracted from `/w/s1.stories.js` in the traces. -/
def s1entryW : StoryEntry :=
  { id := "s1--a", title := "S1", name := "A", importPath := "./s1.stories.js",
    tags := ["story"] }

/-- The story entry extracted from `/w/s2.stories.js` in the traces. -/
def s2entryW : StoryEntry :=
  { id := "s2--a", title := "S2", name := "A", importPath := "./s2.stories.js",
    tags := ["story"] }

/-- C6 witness: caches with one extracted stories file and one pending
docs file. -/
def c6w0 : Caches :=
  [(0, [("/w/s1.stories.js", CacheEntry.stories [IndexEntry.story s1entryW] []),
        ("/w/d.mdx", CacheEntry.unprocessed)])]

/-- C6 witness: the caches after `extractDocs` pushed its dependent edge. -/
def c6w1 : Caches :=
  [(0, [("/w/s1.stories.js", CacheEntry.stories [IndexEntry.story s1entryW] ["/w/d.mdx"]),
        ("/w/d.mdx", CacheEntry.unprocessed)])]

/-- C6 witness: the docs entry `extractDocs` produces for `/w/d.mdx`. -/
def c6wDocs : DocsEntry :=
  { id := "D--Docs", title := "D", name := "Docs", importPath := "./d.mdx",
    storiesImports := ["./s1.stories.js"], tags := ["docs"] }

/-- C6 witness: the state with the docs entry recorded, before removal. -/
def c6w2state : GenState :=
  { caches := [(0, [("/w/s1.stories.js", CacheEntry.stories [IndexEntry.story s1entryW] ["/w/d.mdx"]),
                    ("/w/d.mdx", CacheEntry.docs c6wDocs)])],
    lastIndex := none, lastError := none }

/-- C6 witness: the state after a removal `invalidate` on the docs file:
the edge is spliced out and the slot is deleted. -/
def c6w3state : GenState :=
  { caches := [(0, [("/w/s1.stories.js", CacheEntry.stories [IndexEntry.story s1entryW] [])])],
    lastIndex := none, lastError := none }

/-- C6 counterexample trace, step 0: two story files and one docs file
importing both, all pending. -/
def c6state0 : GenState :=
  { caches := [(0, [("/w/s1.stories.js", CacheEntry.unprocessed),
                    ("/w/s2.stories.js", CacheEntry.unprocessed),
                    ("/w/d.mdx", CacheEntry.unprocessed)])],
    lastIndex := none, lastError := none }

/-- C6 counterexample trace: after the first full `getIndex`. -/
def c6state1 : GenState := (getIndex cexOpts ext6 c6state0).2.1

/-- C6 counterexample trace: after `s1.stories.js` changes (invalidate,
not removed): its slot and the docs slot are reset, but `s2.stories.js`
keeps its recorded dependent edge. -/
def c6state2 : GenState := (invalidate cexOpts c6state1 0 "./s1.stories.js" false).2

/-- C6 counterexample trace: after the second `getIndex`, which re-runs
`extractDocs` and pushes the docs path onto `s2`'s dependents again. -/
def c6state3 : GenState := (getIndex cexOpts ext6 c6state2).2.1

/-- C6 counterexample trace: after removing the docs file. -/
def c6state4 : GenState := (invalidate cexOpts c6state3 0 "./d.mdx" true).2

/-- C7 counterexample trace, step 0: one story file and one docs file
importing it, both pending. -/
def c7state0 : GenState :=
  { caches := [(0, [("/w/s1.stories.js", CacheEntry.unprocessed),
                    ("/w/d.mdx", CacheEntry.unprocessed)])],
    lastIndex := none, lastError := none }

/-- C7 counterexample trace: after a successful `getIndex`. -/
def c7state1 : GenState := (getIndex cexOpts ext7 c7state0).2.1

/-- C7 counterexample trace: a new file `s1.stories.jsx` appears (watcher
create event): its slot is created unprocessed, the memo is cleared. -/
def c7state2 : GenState := (invalidate cexOpts c7state1 0 "./s1.stories.jsx" false).2

/-- C7 counterexample trace: `getIndex` again; no indexer matches the new
file, so it becomes an `Error` cache entry and the run memoizes the
aggregate error. -/
def c7state3 : GenState := (getIndex cexOpts ext7 c7state2).2.1

/-- The generator states reachable from a freshly constructed generator
through its public operations. -/
inductive Reachable (opts : GenOptions) (ext : Externals) : GenState → Prop where
  | init (caches : Caches) :
      Reachable opts ext { caches := caches, lastIndex := none, lastError := none }
  | stepGetIndex {s : GenState} : Reachable opts ext s →
      Reachable opts ext (getIndex opts ext s).2.1
  | stepInvalidate {s : GenState} (sid : Nat) (p : String) (removed : Bool) :
      Reachable opts ext s → Reachable opts ext (invalidate opts s sid p removed).2
  | stepEnsureExtracted {s : GenState} : Reachable opts ext s →
      Reachable opts ext { s with caches := (ensureExtracted opts ext s.caches).1 }

/-- C5: two story entries claiming the same id make `chooseDuplicate`
throw an `IndexingError` naming both import paths; no winner is returned. -/
theorem c5_duplicate_stories_always_error (opts : GenOptions) (a b : StoryEntry) :
    chooseDuplicate opts (.story a) (.story b) =
      .error { message := "Duplicate stories with id: " ++ a.id,
               paths := [a.importPath, b.importPath] } := rfl
/-- C2 (counterexample): for two autogenerated docs entries with the same
id, swapping the arguments of `chooseDuplicate` changes the surviving
entry content: each order keeps its first argument's `importPath`, so the
outcomes are not semantically equivalent. -/
theorem c2_counterexample :
    chooseDuplicate cexOpts (IndexEntry.docs cexDocsA) (IndexEntry.docs cexDocsB) =
      Except.ok (IndexEntry.docs { cexDocsA with storiesImports := ["./b.stories.js"] }, []) ∧
    chooseDuplicate cexOpts (IndexEntry.docs cexDocsB) (IndexEntry.docs cexDocsA) =
      Except.ok (IndexEntry.docs { cexDocsB with storiesImports := ["./a.stories.js"] }, []) ∧
    cexDocsA.importPath ≠ cexDocsB.importPath := by decide
/-- C2 (amended): `chooseDuplicate` is insensitive to argument order --
identical winner, warnings and error -- whenever the two entries differ in
duplicate precedence (story vs docs, or MDX docs vs autogenerated docs);
only equal-precedence pairs are resolved in favour of the first argument. -/
theorem c2_amended_order_insensitive_across_precedence (opts : GenOptions)
    (a b : IndexEntry) (h : duplicatePrecedence a ≠ duplicatePrecedence b) :
    chooseDuplicate opts a b = chooseDuplicate opts b a := by
  cases a with
  | story sa =>
    cases b with
    | story sb => simp [duplicatePrecedence] at h
    | docs db => rfl
  | docs da =>
    cases b with
    | story sb => rfl
    | docs db =>
      cases hda : isMdxEntry da <;> cases hdb : isMdxEntry db <;>
        simp [duplicatePrecedence, hda, hdb] at h ⊢ <;>
        simp [chooseDuplicate, hda, hdb]
/-- Witness for the amended C2 at a concrete story/docs pair. -/
theorem c2_amended_witness :
    duplicatePrecedence (IndexEntry.story cexStoryA) ≠
      duplicatePrecedence (IndexEntry.docs cexDocsA) ∧
    chooseDuplicate cexOpts (IndexEntry.story cexStoryA) (IndexEntry.docs cexDocsA) =
      chooseDuplicate cexOpts (IndexEntry.docs cexDocsA) (IndexEntry.story cexStoryA) :=
  ⟨by decide,
   c2_amended_order_insensitive_across_precedence cexOpts _ _ (by decide)⟩
/-- C4 (counterexample): merging two autogenerated docs entries does not
produce the union of the two `storiesImports` lists: the loser's
`importPath` is also inserted, so the merged list differs from the union
(here both originals are empty but the merge is not). -/
theorem c4_counterexample :
    chooseDuplicate cexOpts (IndexEntry.docs cexDocsA) (IndexEntry.docs cexDocsB) =
      Except.ok (IndexEntry.docs { cexDocsA with storiesImports := ["./b.stories.js"] }, []) ∧
    cexDocsA.storiesImports ++ cexDocsB.storiesImports = [] := by decide
/-- C4 (amended): for two non-MDX docs entries with one id,
`chooseDuplicate` keeps the winner's `title`, `name` and `importPath`, and
its `storiesImports` is the winner's list, then the loser's `importPath`,
then the loser's list. -/
theorem c4_amended_merge (opts : GenOptions) (bd wd : DocsEntry)
    (h1 : isMdxEntry bd = false) (h2 : isMdxEntry wd = false) :
    chooseDuplicate opts (.docs bd) (.docs wd) =
      .ok (IndexEntry.docs { bd with
             storiesImports := bd.storiesImports ++ wd.importPath :: wd.storiesImports }, []) := by
  simp [chooseDuplicate, h1, h2]
/-- Witness for the amended C4 at the two concrete autogenerated entries. -/
theorem c4_amended_witness :
    isMdxEntry cexDocsA = false ∧ isMdxEntry cexDocsB = false ∧
    chooseDuplicate cexOpts (.docs cexDocsA) (.docs cexDocsB) =
      .ok (IndexEntry.docs { cexDocsA with
             storiesImports := cexDocsA.storiesImports ++
               cexDocsB.importPath :: cexDocsB.storiesImports }, []) :=
  ⟨by decide, by decide, c4_amended_merge cexOpts cexDocsA cexDocsB (by decide) (by decide)⟩
/-- C1: a `getIndex` call that succeeds memoizes its index, and a
subsequent `getIndex` on the resulting state (no `invalidate` in between)
returns the identical index, leaves the state unchanged, and invokes no
updater (neither `updateExtracted` sweep runs: the invocation count is 0). -/
theorem c1_getIndex_idempotent (opts : GenOptions) (ext : Externals) (s s2 : GenState)
    (idx : StoryIndex) (n : Nat)
    (h : getIndex opts ext s = (Except.ok idx, s2, n)) :
    getIndex opts ext s2 = (Except.ok idx, s2, 0) := by
  have hlast : s2.lastIndex = some idx := by
    cases hs : s.lastIndex with
    | some i =>
      simp [getIndex, hs] at h
      rw [← h.2.1, hs, h.1]
    | none =>
      cases he : s.lastError with
      | some e => simp [getIndex, hs, he] at h
      | none =>
        cases hr : (computeIndex opts ext s.caches).1 with
        | ok v =>
          simp [getIndex, hs, he, hr] at h
          rw [← h.2.1]
          simp [h.1]
        | error ge => simp [getIndex, hs, he, hr] at h
  simp [getIndex, hlast]
/-- Witness for C1 at the empty generator. -/
theorem c1_witness : getIndex cexOpts ext7 c1s1 = (Except.ok { v := 4, entries := [] }, c1s1, 0) :=
  c1_getIndex_idempotent cexOpts ext7 emptyState c1s1 { v := 4, entries := [] } 0 (by decide)
/-- C10: with `storyStoreV7` disabled, `extractDocs` throws before reading
the file, for every externals (so regardless of content), and the sweep
records the thrown message as an `Error` cache entry for the path. -/
theorem c10_extractDocs_requires_storyStoreV7 (opts : GenOptions) (ext : Externals)
    (caches : Caches) (sid : Nat) (p : String) (h : opts.storyStoreV7 = false) :
    extractDocs opts ext caches sid p =
      (caches, Except.error "You cannot use `.mdx` files without using `storyStoreV7`.") ∧
    slotResult opts p (extractDocs opts ext caches sid p).2 =
      CacheEntry.error
        { message := "You cannot use `.mdx` files without using `storyStoreV7`.",
          paths := ["./" ++ relativize opts.workingDir p] } := by
  constructor <;> simp [extractDocs, slotResult, h]
/-- Witness for C10 at a concrete docs path. -/
theorem c10_witness :
    extractDocs cexOptsNoV7 ext7 [] 0 "/w/d.mdx" =
      ([], Except.error "You cannot use `.mdx` files without using `storyStoreV7`.") :=
  (c10_extractDocs_requires_storyStoreV7 cexOptsNoV7 ext7 [] 0 "/w/d.mdx" (by decide)).1
/-- C8 (amended): `extractStories` synthesizes a docs entry iff the
indexer reported a non-empty raw story list (`csf.stories`, before the
`docsOnly` filter) and the file carries the `stories-mdx` tag or autodocs
applies (globally or via the `autodocs` tag); when synthesized the docs
entry precedes every story entry, uses the default docs name, and points
at the same file. -/
theorem c8_docs_entry_synthesis (opts : GenOptions) (importPath : String) (csf : CsfFile) :
    (addDocsEntry opts csf = true →
      extractStoriesFromCsf opts importPath csf =
        IndexEntry.docs (docsEntryForCsf opts importPath csf) ::
          storyEntriesFromCsf importPath csf ∧
      (docsEntryForCsf opts importPath csf).name = opts.docs.defaultName ∧
      (docsEntryForCsf opts importPath csf).importPath = importPath) ∧
    (addDocsEntry opts csf = false →
      extractStoriesFromCsf opts importPath csf = storyEntriesFromCsf importPath csf) ∧
    (addDocsEntry opts csf = true ↔
      csf.stories ≠ [] ∧
        ((componentTagsOf csf).contains STORIES_MDX_TAG = true ∨
          opts.docs.autodocs = AutodocsConfig.enabled ∨
          (opts.docs.autodocs = AutodocsConfig.tagOnly ∧
            (componentTagsOf csf).contains AUTODOCS_TAG = true))) ∧
    (∀ e ∈ storyEntriesFromCsf importPath csf, ∃ se, e = IndexEntry.story se) := by
  refine ⟨fun h => ⟨by simp [extractStoriesFromCsf, h], by simp [docsEntryForCsf],
    by simp [docsEntryForCsf]⟩, fun h => by simp [extractStoriesFromCsf, h], ?_, ?_⟩
  · constructor
    · intro h
      simp [addDocsEntry, autodocsOptedIn, bne] at h
      obtain ⟨h1, h2⟩ := h
      refine ⟨by simpa [← List.length_eq_zero] using h1, ?_⟩
      rcases h2 with h2 | h2
      · exact Or.inl (by simpa using h2)
      · rcases h2 with h2 | ⟨h2a, h2b⟩
        · exact Or.inr (Or.inl (by simpa using h2))
        · exact Or.inr (Or.inr ⟨by simpa using h2a, by simpa using h2b⟩)
    · rintro ⟨h1, h2⟩
      simp [addDocsEntry, autodocsOptedIn, bne, List.length_eq_zero]
      refine ⟨h1, ?_⟩
      rcases h2 with h2 | h2 | ⟨h2a, h2b⟩
      · exact Or.inl (by simpa using h2)
      · exact Or.inr (Or.inl (by simpa using h2))
      · exact Or.inr (Or.inr ⟨by simpa using h2a, by simpa using h2b⟩)
  · intro e he
    simp [storyEntriesFromCsf, List.mem_filterMap] at he
    obtain ⟨st, _, hst⟩ := he
    by_cases hd : st.docsOnly
    · simp [hd] at hst
    · simp [hd] at hst
      exact ⟨_, hst.symm⟩
/-- C8 (counterexample): a file whose only story is `docsOnly` produces an
empty story-entry list, yet with autodocs enabled a docs entry is still
synthesized -- so the synthesis condition tests the raw `csf.stories`
list, not the filtered entry list. -/
theorem c8_counterexample :
    storyEntriesFromCsf "./a.story.js" cexCsfDocsOnly = [] ∧
    extractStoriesFromCsf cexOptsAutodocs "./a.story.js" cexCsfDocsOnly =
      [IndexEntry.docs
        { id := "T--Docs", title := "T", name := "Docs", importPath := "./a.story.js",
          storiesImports := [], tags := ["docs", "autodocs"] }] := by decide
/-- Witness for the amended C8 at a concrete autodocs-enabled file. -/
theorem c8_witness :
    extractStoriesFromCsf cexOptsAutodocs "./a.story.js" cexCsfDocsOnly =
      IndexEntry.docs (docsEntryForCsf cexOptsAutodocs "./a.story.js" cexCsfDocsOnly) ::
        storyEntriesFromCsf "./a.story.js" cexCsfDocsOnly :=
  ((c8_docs_entry_synthesis cexOptsAutodocs "./a.story.js" cexCsfDocsOnly).1 (by decide)).1

/-- `pure` on `Except` is `ok` (reduction helper). -/
theorem except_pure {ε α : Type} (x : α) : (pure x : Except ε α) = Except.ok x := rfl

/-- Bind on an `ok` value reduces (reduction helper). -/
theorem except_bind_ok {ε α β : Type} (x : α) (f : α → Except ε β) :
    (Except.ok x >>= f) = f x := rfl

/-- Bind on an `error` value reduces (reduction helper). -/
theorem except_bind_error {ε α β : Type} (m : ε) (f : α → Except ε β) :
    ((Except.error m : Except ε α) >>= f) = Except.error m := rfl

/-- Map on an `ok` value reduces (reduction helper). -/
theorem except_map_ok {ε α β : Type} (g : α → β) (x : α) :
    Except.map g (Except.ok (ε := ε) x) = Except.ok (g x) := rfl

/-- Map on an `error` value reduces (reduction helper). -/
theorem except_map_error {ε α β : Type} (g : α → β) (m : ε) :
    Except.map g (Except.error (α := α) m) = (Except.error m : Except ε β) := rfl

/-- Folding `depScanStep` over keys that all hold stories entries
collects exactly those keys. -/
theorem depScanFold_ok (sid : Nat) (cache : SpecCache) (fns : List String)
    (acc : List (Nat × String))
    (h : ∀ fn ∈ fns, isStoriesOpt (getSlot cache fn) = true) :
    fns.foldlM (depScanStep sid cache) acc =
      Except.ok (acc ++ fns.map fun fn => (sid, fn)) := by
  induction fns generalizing acc with
  | nil => simp [except_pure]
  | cons a l ih =>
    have ha := h a (by simp)
    rcases hsl : getSlot cache a with _ | e
    · simp [isStoriesOpt, hsl] at ha
    · cases e with
      | stories es ds =>
        simp only [List.foldlM_cons, depScanStep, hsl, except_bind_ok]
        rw [ih _ (fun fn hfn => h fn (by simp [hfn]))]
        simp
      | unprocessed => simp [isStoriesOpt, hsl] at ha
      | docs d => simp [isStoriesOpt, hsl] at ha
      | error er => simp [isStoriesOpt, hsl] at ha

/-- Folding `depScanStep` over keys containing a non-stories slot throws. -/
theorem depScanFold_err (sid : Nat) (cache : SpecCache) (fns : List String)
    (acc : List (Nat × String))
    (h : ∃ fn ∈ fns, isStoriesOpt (getSlot cache fn) = false) :
    ∃ msg, fns.foldlM (depScanStep sid cache) acc = Except.error msg := by
  induction fns generalizing acc with
  | nil => simp at h
  | cons a l ih =>
    by_cases ha : isStoriesOpt (getSlot cache a) = true
    · rcases hsl : getSlot cache a with _ | e
      · rw [hsl] at ha; simp [isStoriesOpt] at ha
      · cases e with
        | stories es ds =>
          have hl : ∃ fn ∈ l, isStoriesOpt (getSlot cache fn) = false := by
            rcases h with ⟨fn, hfn, hbad⟩
            rcases List.mem_cons.mp hfn with rfl | hfn2
            · rw [ha] at hbad; cases hbad
            · exact ⟨fn, hfn2, hbad⟩
          simp only [List.foldlM_cons, depScanStep, hsl, except_bind_ok]
          exact ih _ hl
        | unprocessed => rw [hsl] at ha; simp [isStoriesOpt] at ha
        | docs d => rw [hsl] at ha; simp [isStoriesOpt] at ha
        | error er => rw [hsl] at ha; simp [isStoriesOpt] at ha
    · rcases hsl : getSlot cache a with _ | e
      · exact ⟨_, by
            simp only [List.foldlM_cons, depScanStep, hsl, except_bind_error]
            rfl⟩
      · cases e with
        | stories es ds => rw [hsl] at ha; simp [isStoriesOpt] at ha
        | unprocessed =>
          exact ⟨_, by
            simp only [List.foldlM_cons, depScanStep, hsl, except_bind_error]
            rfl⟩
        | docs d =>
          exact ⟨_, by
            simp only [List.foldlM_cons, depScanStep, hsl, except_bind_error]
            rfl⟩
        | error er =>
          exact ⟨_, by
            simp only [List.foldlM_cons, depScanStep, hsl, except_bind_error]
            rfl⟩

/-- A cache scan collects exactly the matched keys when all of them hold
stories entries. -/
theorem scanCacheForDeps_ok (sid : Nat) (cache : SpecCache) (imps : List String)
    (h : ∀ fn ∈ (cache.map Prod.fst).filter (importMatched imps),
      isStoriesOpt (getSlot cache fn) = true) :
    scanCacheForDeps sid cache imps =
      Except.ok (((cache.map Prod.fst).filter (importMatched imps)).map fun fn => (sid, fn)) := by
  rw [scanCacheForDeps]
  simpa using depScanFold_ok sid cache _ [] h

/-- A cache scan throws when some matched key holds a non-stories slot. -/
theorem scanCacheForDeps_err (sid : Nat) (cache : SpecCache) (imps : List String)
    (h : ∃ fn ∈ (cache.map Prod.fst).filter (importMatched imps),
      isStoriesOpt (getSlot cache fn) = false) :
    ∃ msg, scanCacheForDeps sid cache imps = Except.error msg := by
  rw [scanCacheForDeps]
  exact depScanFold_err sid cache _ [] h

/-- The cache-level fold of `findDependencies` concatenates the per-cache
matched keys when every matched slot is a stories entry. -/
theorem findDepsFold_ok (imps : List String) (cs : Caches) (acc : List (Nat × String))
    (h : ∀ sc ∈ cs, ∀ fn ∈ (sc.2.map Prod.fst).filter (importMatched imps),
      isStoriesOpt (getSlot sc.2 fn) = true) :
    cs.foldlM (fun acc2 sc => (scanCacheForDeps sc.1 sc.2 imps).map fun l => acc2 ++ l) acc =
      Except.ok (acc ++ matchedKeys cs imps) := by
  induction cs generalizing acc with
  | nil => simp [matchedKeys, except_pure]
  | cons sc rest ih =>
    rw [List.foldlM_cons, scanCacheForDeps_ok sc.1 sc.2 imps (h sc (by simp))]
    rw [except_map_ok, except_bind_ok]
    rw [ih _ (fun sc2 hsc2 => h sc2 (by simp [hsc2]))]
    simp [matchedKeys]

/-- The cache-level fold of `findDependencies` throws when some cache has
a matched non-stories slot. -/
theorem findDepsFold_err (imps : List String) (cs : Caches) (acc : List (Nat × String))
    (h : ∃ sc ∈ cs, ∃ fn ∈ (sc.2.map Prod.fst).filter (importMatched imps),
      isStoriesOpt (getSlot sc.2 fn) = false) :
    ∃ msg, cs.foldlM
      (fun acc2 sc => (scanCacheForDeps sc.1 sc.2 imps).map fun l => acc2 ++ l) acc =
      Except.error msg := by
  induction cs generalizing acc with
  | nil => simp at h
  | cons sc rest ih =>
    by_cases hall : ∀ fn ∈ (sc.2.map Prod.fst).filter (importMatched imps),
        isStoriesOpt (getSlot sc.2 fn) = true
    · have hrest : ∃ sc2 ∈ rest, ∃ fn ∈ (sc2.2.map Prod.fst).filter (importMatched imps),
          isStoriesOpt (getSlot sc2.2 fn) = false := by
        rcases h with ⟨sc2, hsc2, fn, hfn, hbad⟩
        rcases List.mem_cons.mp hsc2 with rfl | hsc3
        · rw [hall fn hfn] at hbad; cases hbad
        · exact ⟨sc2, hsc3, fn, hfn, hbad⟩
      rw [List.foldlM_cons, scanCacheForDeps_ok sc.1 sc.2 imps hall]
      rw [except_map_ok, except_bind_ok]
      exact ih _ hrest
    · have hbad : ∃ fn ∈ (sc.2.map Prod.fst).filter (importMatched imps),
          isStoriesOpt (getSlot sc.2 fn) = false := by
        push_neg at hall
        rcases hall with ⟨fn, hfn, hne⟩
        exact ⟨fn, hfn, by simpa using hne⟩
      rcases scanCacheForDeps_err sc.1 sc.2 imps hbad with ⟨msg, hmsg⟩
      exact ⟨msg, by simp [List.foldlM_cons, hmsg, except_map_error, except_bind_error]⟩

/-- C9: `findDependencies` succeeds exactly on the prefix-matched cache
keys: when every matched slot holds a stories entry it returns all of
them (imports matching nothing are silently fine, including an empty
match set), and when any matched slot is unprocessed, docs or error it
throws. -/
theorem c9_findDependencies (caches : Caches) (imps : List String) :
    ((∀ sc ∈ caches, ∀ fn ∈ (sc.2.map Prod.fst).filter (importMatched imps),
        isStoriesOpt (getSlot sc.2 fn) = true) →
      findDependencies caches imps = Except.ok (matchedKeys caches imps)) ∧
    ((∃ sc ∈ caches, ∃ fn ∈ (sc.2.map Prod.fst).filter (importMatched imps),
        isStoriesOpt (getSlot sc.2 fn) = false) →
      ∃ msg, findDependencies caches imps = Except.error msg) := by
  constructor
  · intro h
    rw [findDependencies]
    simpa using findDepsFold_ok imps caches [] h
  · intro h
    rw [findDependencies]
    exact findDepsFold_err imps caches [] h

/-- Witness for C9: a concrete success (all matched keys collected) and a
concrete failure (a matched unprocessed slot throws). -/
theorem c9_witness :
    findDependencies c6w0 ["/w/s1"] = Except.ok (matchedKeys c6w0 ["/w/s1"]) ∧
    matchedKeys c6w0 ["/w/s1"] = [(0, "/w/s1.stories.js")] ∧
    findDependencies c6w0 ["/w/d"] = Except.error "Unexpected dependency: false" :=
  ⟨(c9_findDependencies c6w0 ["/w/s1"]).1 (by decide), by decide, by decide⟩

/-- C3: with no memoized result, if extraction leaves any `Error` cache
entries, `getIndex` throws one aggregate error wrapping all of them and
duplicate resolution is pre-empted; with none, all duplicate conflicts
found across the whole entry list are aggregated into one error; the
duplicate fold never stops at the first conflict (appending an entry can
only append conflicts, never discard collected ones). -/
theorem c3_error_aggregation (opts : GenOptions) (ext : Externals) (s : GenState)
    (h1 : s.lastIndex = none) (h2 : s.lastError = none) :
    (∀ errs, errs = (ensureExtracted opts ext s.caches).2.1.filterMap
        (fun f => match f with | FlatItem.err e => some e | _ => none) →
      errs ≠ [] → (getIndex opts ext s).1 = Except.error (GenError.multiple errs)) ∧
    (∀ dups, (ensureExtracted opts ext s.caches).2.1.filterMap
        (fun f => match f with | FlatItem.err e => some e | _ => none) = [] →
      dups = (buildIndexEntries opts ((ensureExtracted opts ext s.caches).2.1.filterMap
        (fun f => match f with | FlatItem.entry e => some e | _ => none))).2 →
      dups ≠ [] → (getIndex opts ext s).1 = Except.error (GenError.multiple dups)) ∧
    (∀ (l : List IndexEntry) (e : IndexEntry),
      ∃ t, (buildIndexEntries opts (l ++ [e])).2 = (buildIndexEntries opts l).2 ++ t) := by
  refine ⟨?_, ?_, ?_⟩
  · intro errs herrs hne
    have hcomp : (computeIndex opts ext s.caches).1 = Except.error (GenError.multiple errs) := by
      simp only [computeIndex]
      rw [← herrs]
      cases errs with
      | nil => exact absurd rfl hne
      | cons a t => simp
    simp [getIndex, h1, h2, hcomp]
  · intro dups herrs0 hdups hne
    have hcomp : (computeIndex opts ext s.caches).1 = Except.error (GenError.multiple dups) := by
      simp only [computeIndex]
      rw [herrs0, ← hdups]
      cases dups with
      | nil => exact absurd rfl hne
      | cons a t => simp
    simp [getIndex, h1, h2, hcomp]
  · intro l e
    rw [buildIndexEntries, buildIndexEntries, List.foldl_append, List.foldl_cons,
      List.foldl_nil]
    rcases hl : lookupEntry (List.foldl (dedupStep opts) ([], []) l).1 e.id with _ | ex
    · exact ⟨[], by simp [dedupStep, hl]⟩
    · rcases hc : chooseDuplicate opts ex e with er | wws
      · exact ⟨[er], by simp [dedupStep, hl, hc]⟩
      · exact ⟨[], by simp [dedupStep, hl, hc]⟩

/-- Witness for C3: two unmatched files produce two extraction errors,
aggregated into one `MultipleIndexingError` by `getIndex`. -/
theorem c3_witness :
    (getIndex cexOpts ext7 c3state).1 = Except.error (GenError.multiple [c3err1, c3err2]) :=
  (c3_error_aggregation cexOpts ext7 c3state rfl rfl).1 [c3err1, c3err2] (by decide) (by decide)

/-- A `getIndex` call preserves mutual exclusivity of the memo fields. -/
theorem getIndex_memo_exclusive (opts : GenOptions) (ext : Externals) (s : GenState)
    (h : s.lastIndex = none ∨ s.lastError = none) :
    (getIndex opts ext s).2.1.lastIndex = none ∨
      (getIndex opts ext s).2.1.lastError = none := by
  cases hs : s.lastIndex with
  | some i =>
    have h2 : s.lastError = none := by
      rcases h with h | h
      · rw [hs] at h; cases h
      · exact h
    simp [getIndex, hs, h2]
  | none =>
    cases he : s.lastError with
    | some e => simp [getIndex, hs, he]
    | none =>
      cases hr : (computeIndex opts ext s.caches).1 with
      | ok v => simp [getIndex, hs, he, hr]
      | error ge => simp [getIndex, hs, he, hr]

/-- An `invalidate` call that returns normally clears both memo fields. -/
theorem invalidate_ok_clears (opts : GenOptions) (s : GenState) (sid : Nat) (p : String)
    (removed : Bool) (s2 : GenState)
    (h : invalidate opts s sid p removed = (Except.ok (), s2)) :
    s2.lastIndex = none ∧ s2.lastError = none := by
  simp only [invalidate] at h
  split at h
  · split at h
    · split at h
      · injection h with hA hB
        simp at hA
      · injection h with hA hB
        subst hB
        exact ⟨rfl, rfl⟩
    · injection h with hA hB
      subst hB
      exact ⟨rfl, rfl⟩
  · injection h with hA hB
    subst hB
    exact ⟨rfl, rfl⟩

/-- An `invalidate` call that throws leaves both memo fields untouched. -/
theorem invalidate_error_keeps (opts : GenOptions) (s : GenState) (sid : Nat) (p : String)
    (removed : Bool) (msg : String) (s2 : GenState)
    (h : invalidate opts s sid p removed = (Except.error msg, s2)) :
    s2.lastIndex = s.lastIndex ∧ s2.lastError = s.lastError := by
  simp only [invalidate] at h
  split at h
  · split at h
    · split at h
      · injection h with hA hB
        subst hB
        exact ⟨rfl, rfl⟩
      · injection h with hA hB
        simp at hA
    · injection h with hA hB
      simp at hA
  · injection h with hA hB
    simp at hA

/-- An `invalidate` call preserves mutual exclusivity of the memo fields. -/
theorem invalidate_memo_exclusive (opts : GenOptions) (s : GenState) (sid : Nat)
    (p : String) (removed : Bool)
    (h : s.lastIndex = none ∨ s.lastError = none) :
    (invalidate opts s sid p removed).2.lastIndex = none ∨
      (invalidate opts s sid p removed).2.lastError = none := by
  rcases hres : invalidate opts s sid p removed with ⟨r, s2⟩
  cases r with
  | ok u =>
    cases u
    exact Or.inl (invalidate_ok_clears opts s sid p removed s2 hres).1
  | error msg =>
    have hk := invalidate_error_keeps opts s sid p removed msg s2 hres
    rcases h with h | h
    · exact Or.inl (hk.1.trans h)
    · exact Or.inr (hk.2.trans h)

/-- C7 (amended): in every reachable generator state the memoized index
and memoized error are never both set; and every `invalidate` call that
returns normally clears both together. (An `invalidate` call can instead
throw from the dependency lookup of a removed docs entry, in which case
it leaves the memo fields untouched -- see the counterexample.) -/
theorem c7_memo_exclusive_and_cleared (opts : GenOptions) (ext : Externals) :
    (∀ s : GenState, Reachable opts ext s → s.lastIndex = none ∨ s.lastError = none) ∧
    (∀ (s : GenState) (sid : Nat) (p : String) (removed : Bool) (s2 : GenState),
      invalidate opts s sid p removed = (Except.ok (), s2) →
      s2.lastIndex = none ∧ s2.lastError = none) := by
  constructor
  · intro s hs
    induction hs with
    | init caches => exact Or.inl rfl
    | stepGetIndex hr ih => exact getIndex_memo_exclusive _ _ _ ih
    | stepInvalidate sid p removed hr ih => exact invalidate_memo_exclusive _ _ _ _ _ ih
    | stepEnsureExtracted hr ih => exact ih
  · intro s sid p removed s2 h
    exact invalidate_ok_clears opts s sid p removed s2 h

/-- Witness for the amended C7: a reachable memoized state is exclusive,
and a normally-returning `invalidate` clears both memo fields. -/
theorem c7_witness :
    (c1s1.lastIndex = none ∨ c1s1.lastError = none) ∧
    ((invalidate cexOpts c1s1 0 "./a.stories.js" false).2.lastIndex = none ∧
      (invalidate cexOpts c1s1 0 "./a.stories.js" false).2.lastError = none) :=
  ⟨(c7_memo_exclusive_and_cleared cexOpts ext7).1 c1s1
      (Reachable.stepGetIndex (Reachable.init [])),
   (c7_memo_exclusive_and_cleared cexOpts ext7).2 c1s1 0 "./a.stories.js" false
      (invalidate cexOpts c1s1 0 "./a.stories.js" false).2 (by decide)⟩

/-- C7 (counterexample): a reachable state (aggregate extraction error
memoized) in which a removal `invalidate` on the docs file throws from
`findDependencies` -- a new `s1.stories.jsx` slot prefix-matches the
docs entry's resolved import and is not a stories entry -- and returns
with the memoized error still set: not every `invalidate` call clears
the memo fields. -/
theorem c7_counterexample :
    Reachable cexOpts ext7 c7state3 ∧
    (invalidate cexOpts c7state3 0 "./d.mdx" true).1 =
      Except.error "Unexpected dependency: [object Object]" ∧
    c7state3.lastError ≠ none ∧
    (invalidate cexOpts c7state3 0 "./d.mdx" true).2.lastError ≠ none :=
  ⟨Reachable.stepGetIndex (Reachable.stepInvalidate 0 "./s1.stories.jsx" false
      (Reachable.stepGetIndex (Reachable.init _))),
   by decide, by decide, by decide⟩

/-- Reading an empty cache yields nothing. -/
theorem getSlot_nil (p : String) : getSlot [] p = none := rfl

/-- Reading a non-empty cache checks the head key first. -/
theorem getSlot_cons (kv : String × CacheEntry) (t : SpecCache) (p : String) :
    getSlot (kv :: t) p = if kv.1 = p then some kv.2 else getSlot t p := by
  by_cases hk : kv.1 = p <;> simp [getSlot, List.find?_cons, hk]

/-- Writing a slot makes it readable. -/
theorem getSlot_setSlot_self (c : SpecCache) (p : String) (e : CacheEntry) :
    getSlot (setSlot c p e) p = some e := by
  induction c with
  | nil => simp [setSlot, getSlot_cons]
  | cons kv t ih =>
    by_cases hk : kv.1 = p
    · simp [setSlot, hk, getSlot_cons]
    · simp [setSlot, hk, getSlot_cons, ih]

/-- Writing a slot leaves other slots unchanged. -/
theorem getSlot_setSlot_ne (c : SpecCache) (p q : String) (e : CacheEntry) (h : q ≠ p) :
    getSlot (setSlot c p e) q = getSlot c q := by
  induction c with
  | nil => simp [setSlot, getSlot_cons, getSlot_nil, Ne.symm h]
  | cons kv t ih =>
    by_cases hk : kv.1 = p
    · rw [setSlot, if_pos hk, getSlot_cons, getSlot_cons, hk, if_neg (Ne.symm h),
        if_neg (Ne.symm h)]
    · rw [setSlot, if_neg hk, getSlot_cons, getSlot_cons, ih]

/-- Deleting a slot removes it. -/
theorem getSlot_delSlot_self (c : SpecCache) (p : String) :
    getSlot (delSlot c p) p = none := by
  induction c with
  | nil => rfl
  | cons kv t ih =>
    by_cases hk : kv.1 = p
    · simpa [delSlot, hk] using ih
    · simpa [delSlot, hk, getSlot_cons] using ih

/-- Deleting a slot leaves other slots unchanged. -/
theorem getSlot_delSlot_ne (c : SpecCache) (p q : String) (h : q ≠ p) :
    getSlot (delSlot c p) q = getSlot c q := by
  induction c with
  | nil => rfl
  | cons kv t ih =>
    by_cases hk : kv.1 = p
    · rw [delSlot, if_pos hk, getSlot_cons, if_neg (by rw [hk]; exact Ne.symm h), ih]
    · rw [delSlot, if_neg hk, getSlot_cons, getSlot_cons, ih]

/-- Pushing a dependent onto one path leaves other paths unchanged. -/
theorem getSlot_pushInCache_ne (c : SpecCache) (fp q dep : String) (h : q ≠ fp) :
    getSlot (pushInCache c fp dep) q = getSlot c q := by
  rw [pushInCache]
  rcases getSlot c fp with _ | e
  · rfl
  · cases e with
    | stories es ds => exact getSlot_setSlot_ne c fp q _ h
    | unprocessed => rfl
    | docs d => rfl
    | error er => rfl

/-- Reading an empty caches map yields the empty cache. -/
theorem getCache_nil (i : Nat) : getCache [] i = [] := rfl

/-- Reading a non-empty caches map checks the head specifier first. -/
theorem getCache_cons (sc : Nat × SpecCache) (t : Caches) (i : Nat) :
    getCache (sc :: t) i = if sc.1 = i then sc.2 else getCache t i := by
  by_cases h : sc.1 = i <;> simp [getCache, List.find?_cons, h]

/-- Updating the caches of one specifier, seen through `getCache`. -/
theorem getCache_mapUpdate (cs : Caches) (t : Nat) (g : SpecCache → SpecCache) (i : Nat)
    (hg : g [] = []) :
    getCache (cs.map fun sc => if sc.1 = t then (sc.1, g sc.2) else sc) i =
      if i = t then g (getCache cs i) else getCache cs i := by
  induction cs with
  | nil => by_cases hit : i = t <;> simp [getCache_nil, hit, hg]
  | cons sc rest ih =>
    rw [List.map_cons]
    by_cases hst : sc.1 = t
    · rw [if_pos hst, getCache_cons, getCache_cons]
      by_cases hsi : sc.1 = i
      · rw [if_pos hsi, if_pos hsi, if_pos (by rw [← hsi, hst])]
      · rw [if_neg hsi, if_neg hsi, ih]
    · rw [if_neg hst, getCache_cons, getCache_cons]
      by_cases hsi : sc.1 = i
      · rw [if_pos hsi, if_pos hsi, if_neg (by rw [← hsi]; exact fun hh => hst hh)]
      · rw [if_neg hsi, if_neg hsi, ih]

/-- `pushDependent` seen through `getCache`. -/
theorem getCache_pushDependent (cs : Caches) (k : Nat × String) (dep : String) (i : Nat) :
    getCache (pushDependent cs k dep) i =
      if i = k.1 then pushInCache (getCache cs i) k.2 dep else getCache cs i := by
  rw [pushDependent]
  exact getCache_mapUpdate cs k.1 (fun c => pushInCache c k.2 dep) i rfl

/-- `spliceDependent` seen through `getCache`. -/
theorem getCache_spliceDependent (cs : Caches) (k : Nat × String) (dep : String) (i : Nat) :
    getCache (spliceDependent cs k dep) i =
      if i = k.1 then
        (match getSlot (getCache cs i) k.2 with
          | some (CacheEntry.stories es ds) =>
              setSlot (getCache cs i) k.2 (CacheEntry.stories es (spliceOne ds dep))
          | _ => getCache cs i)
      else getCache cs i := by
  rw [spliceDependent]
  exact getCache_mapUpdate cs k.1
    (fun c => match getSlot c k.2 with
      | some (CacheEntry.stories es ds) =>
          setSlot c k.2 (CacheEntry.stories es (spliceOne ds dep))
      | _ => c) i rfl

/-- `deleteCacheSlot` seen through `getCache`. -/
theorem getCache_deleteCacheSlot (cs : Caches) (sid : Nat) (p : String) (i : Nat) :
    getCache (deleteCacheSlot cs sid p) i =
      if i = sid then delSlot (getCache cs i) p else getCache cs i := by
  rw [deleteCacheSlot]
  exact getCache_mapUpdate cs sid (fun c => delSlot c p) i rfl

/-- Pushing a dependent onto a stories key appends it to that slot. -/
theorem push_self_slot (caches : Caches) (k : Nat × String) (dep : String)
    (es : List IndexEntry) (ds : List String)
    (h : getSlot (getCache caches k.1) k.2 = some (CacheEntry.stories es ds)) :
    getSlot (getCache (pushDependent caches k dep) k.1) k.2 =
      some (CacheEntry.stories es (ds ++ [dep])) := by
  rw [getCache_pushDependent, if_pos rfl, pushInCache, h, getSlot_setSlot_self]

/-- Pushing a dependent through a different key leaves a slot unchanged. -/
theorem push_other_slot (caches : Caches) (k k2 : Nat × String) (dep : String)
    (h : k2 ≠ k) :
    getSlot (getCache (pushDependent caches k2 dep) k.1) k.2 =
      getSlot (getCache caches k.1) k.2 := by
  rw [getCache_pushDependent]
  by_cases hik : k.1 = k2.1
  · rw [if_pos hik]
    have hne : k.2 ≠ k2.2 := by
      intro he
      exact h (Prod.ext_iff.mpr ⟨hik.symm, he.symm⟩)
    exact getSlot_pushInCache_ne _ _ _ _ hne
  · rw [if_neg hik]

/-- Membership in a dependents list survives any dependent push. -/
theorem mem_dependentsAt_push (caches : Caches) (k k2 : Nat × String) (dep q : String)
    (h : q ∈ dependentsAt caches k) :
    q ∈ dependentsAt (pushDependent caches k2 dep) k := by
  by_cases he : k2 = k
  · subst he
    rcases hsl : getSlot (getCache caches k2.1) k2.2 with _ | e
    · simp only [dependentsAt, hsl] at h
      cases h
    · cases e with
      | stories es ds =>
        simp only [dependentsAt, hsl] at h
        simp only [dependentsAt, push_self_slot caches k2 dep es ds hsl]
        exact List.mem_append_left _ h
      | unprocessed => simp only [dependentsAt, hsl] at h; cases h
      | docs d => simp only [dependentsAt, hsl] at h; cases h
      | error er => simp only [dependentsAt, hsl] at h; cases h
  · rw [dependentsAt, push_other_slot caches k k2 dep he]
    rw [dependentsAt] at h
    exact h

/-- Membership in a dependents list survives a whole fold of pushes. -/
theorem mem_dependentsAt_pushFold (deps : List (Nat × String)) (dep q : String)
    (k : Nat × String) :
    ∀ caches, q ∈ dependentsAt caches k →
      q ∈ dependentsAt (deps.foldl (fun cs k2 => pushDependent cs k2 dep) caches) k := by
  induction deps with
  | nil => intro caches h; exact h
  | cons k0 rest ih =>
    intro caches h
    rw [List.foldl_cons]
    exact ih _ (mem_dependentsAt_push caches k k0 dep q h)

/-- After the dependents pushes of `extractDocs`, every pushed key's
dependents list contains the docs path. -/
theorem pushFold_mem (deps : List (Nat × String)) (dep : String) (k : Nat × String) :
    ∀ caches, k ∈ deps →
      isStoriesOpt (getSlot (getCache caches k.1) k.2) = true →
      dep ∈ dependentsAt (deps.foldl (fun cs k2 => pushDependent cs k2 dep) caches) k := by
  induction deps with
  | nil => intro caches hk _; cases hk
  | cons k0 rest ih =>
    intro caches hk hst
    rw [List.foldl_cons]
    rcases List.mem_cons.mp hk with heq | hk2
    · subst heq
      rcases hsl : getSlot (getCache caches k.1) k.2 with _ | e
      · rw [hsl] at hst; simp [isStoriesOpt] at hst
      · cases e with
        | stories es ds =>
          apply mem_dependentsAt_pushFold rest dep dep k
          simp only [dependentsAt, push_self_slot caches k dep es ds hsl]
          simp
        | unprocessed => rw [hsl] at hst; simp [isStoriesOpt] at hst
        | docs d => rw [hsl] at hst; simp [isStoriesOpt] at hst
        | error er => rw [hsl] at hst; simp [isStoriesOpt] at hst
    · apply ih _ hk2
      by_cases he : k0 = k
      · subst he
        rcases hsl : getSlot (getCache caches k0.1) k0.2 with _ | e
        · rw [hsl] at hst; simp [isStoriesOpt] at hst
        · cases e with
          | stories es ds =>
            rw [push_self_slot caches k0 dep es ds hsl]
            rfl
          | unprocessed => rw [hsl] at hst; simp [isStoriesOpt] at hst
          | docs d => rw [hsl] at hst; simp [isStoriesOpt] at hst
          | error er => rw [hsl] at hst; simp [isStoriesOpt] at hst
      · rw [push_other_slot caches k k0 dep he]
        exact hst

/-- With distinct specifier ids, a member cache is what `getCache` finds. -/
theorem getCache_eq_of_mem (cs : Caches) (sc : Nat × SpecCache) (hmem : sc ∈ cs)
    (hnd : (cs.map Prod.fst).Nodup) : getCache cs sc.1 = sc.2 := by
  induction cs with
  | nil => cases hmem
  | cons a rest ih =>
    rw [List.map_cons] at hnd
    rcases List.mem_cons.mp hmem with heq | h2
    · subst heq
      rw [getCache_cons, if_pos rfl]
    · have hne : a.1 ≠ sc.1 := by
        intro he
        exact (List.nodup_cons.mp hnd).1 (he ▸ List.mem_map_of_mem Prod.fst h2)
      rw [getCache_cons, if_neg hne]
      exact ih h2 (List.nodup_cons.mp hnd).2

/-- A matched key comes from some cache in the list. -/
theorem matchedKeys_mem (cs : Caches) (imps : List String) (k : Nat × String)
    (h : k ∈ matchedKeys cs imps) :
    ∃ sc ∈ cs, sc.1 = k.1 ∧ k.2 ∈ (sc.2.map Prod.fst).filter (importMatched imps) := by
  rw [matchedKeys] at h
  rcases List.mem_flatMap.mp h with ⟨sc, hsc, hin⟩
  rcases List.mem_map.mp hin with ⟨fn, hfn, heq⟩
  cases heq
  exact ⟨sc, hsc, rfl, hfn⟩

/-- Inversion of a successful `findDependencies`: the result is exactly
the matched keys and every matched slot is a stories entry. -/
theorem findDeps_ok_inv (cs : Caches) (imps : List String) (deps : List (Nat × String))
    (h : findDependencies cs imps = Except.ok deps) :
    deps = matchedKeys cs imps ∧
      ∀ sc ∈ cs, ∀ fn ∈ (sc.2.map Prod.fst).filter (importMatched imps),
        isStoriesOpt (getSlot sc.2 fn) = true := by
  by_cases hall : ∀ sc ∈ cs, ∀ fn ∈ (sc.2.map Prod.fst).filter (importMatched imps),
      isStoriesOpt (getSlot sc.2 fn) = true
  · refine ⟨?_, hall⟩
    have h2 : findDependencies cs imps = Except.ok (matchedKeys cs imps) := by
      rw [findDependencies]
      simpa using findDepsFold_ok imps cs [] hall
    exact Except.ok.inj (h.symm.trans h2)
  · exfalso
    push_neg at hall
    rcases hall with ⟨sc, hsc, fn, hfn, hbad⟩
    have hbad2 : isStoriesOpt (getSlot sc.2 fn) = false := by
      cases hb : isStoriesOpt (getSlot sc.2 fn)
      · rfl
      · exact absurd hb hbad
    rcases findDepsFold_err imps cs [] ⟨sc, hsc, fn, hfn, hbad2⟩ with ⟨msg, hmsg⟩
    rw [findDependencies] at h
    rw [h] at hmsg
    exact Except.noConfusion hmsg

/-- A dependency key of a successful `findDependencies` run holds a
stories slot (under distinct specifier ids). -/
theorem depKey_stories (cs : Caches) (imps : List String) (deps : List (Nat × String))
    (k : Nat × String) (hnd : (cs.map Prod.fst).Nodup)
    (h : findDependencies cs imps = Except.ok deps) (hk : k ∈ deps) :
    isStoriesOpt (getSlot (getCache cs k.1) k.2) = true := by
  obtain ⟨hdeps, hall⟩ := findDeps_ok_inv cs imps deps h
  subst hdeps
  rcases matchedKeys_mem cs imps k hk with ⟨sc, hsc, h1, h2⟩
  have hst := hall sc hsc k.2 h2
  rw [← h1, getCache_eq_of_mem cs sc hsc hnd]
  exact hst

/-- `spliceOne` never introduces a member. -/
theorem not_mem_spliceOne (l : List String) (x q : String) (h : q ∉ l) :
    q ∉ spliceOne l x := by
  rw [spliceOne]
  split
  · intro hq; exact h (List.mem_of_mem_erase hq)
  · intro hq; exact h (List.dropLast_subset l hq)

/-- Splicing out a path that occurs at most once removes it. -/
theorem not_mem_spliceOne_self (l : List String) (x : String) (h : l.count x ≤ 1) :
    x ∉ spliceOne l x := by
  rw [spliceOne]
  split
  · rename_i hc
    intro hx
    have hmem : x ∈ l := by simpa using hc
    have h1 : 0 < l.count x := List.count_pos_iff.mpr hmem
    have hone : l.count x = 1 := le_antisymm h h1
    have h2 : (l.erase x).count x = 0 := by
      rw [List.count_erase_self, hone]
    exact (List.count_eq_zero.mp h2) hx
  · rename_i hc
    intro hx
    exact hc (by simpa using List.dropLast_subset l hx)

/-- `spliceOne` never increases a count. -/
theorem spliceOne_count_le (l : List String) (x q : String) :
    (spliceOne l x).count q ≤ l.count q := by
  rw [spliceOne]
  split
  · exact (List.erase_sublist x l).count_le q
  · exact (List.dropLast_sublist l).count_le q

/-- `spliceDependent` at a key, seen at that key. -/
theorem splice_self_dependentsAt (caches : Caches) (k : Nat × String) (dep : String) :
    dependentsAt (spliceDependent caches k dep) k =
      spliceOne (dependentsAt caches k) dep := by
  rw [dependentsAt, dependentsAt, getCache_spliceDependent, if_pos rfl]
  rcases hsl : getSlot (getCache caches k.1) k.2 with _ | e
  · simp [hsl, spliceOne]
  · cases e with
    | stories es ds => simp [hsl, getSlot_setSlot_self]
    | unprocessed => simp [hsl, spliceOne]
    | docs d => simp [hsl, spliceOne]
    | error er => simp [hsl, spliceOne]

/-- `spliceDependent` at another key leaves a dependents list unchanged. -/
theorem splice_other_dependentsAt (caches : Caches) (k k2 : Nat × String) (dep : String)
    (h : k2 ≠ k) :
    dependentsAt (spliceDependent caches k2 dep) k = dependentsAt caches k := by
  rw [dependentsAt, dependentsAt, getCache_spliceDependent]
  by_cases hik : k.1 = k2.1
  · rw [if_pos hik]
    have hne : k.2 ≠ k2.2 := fun he => h (Prod.ext_iff.mpr ⟨hik.symm, he.symm⟩)
    rcases hsl : getSlot (getCache caches k.1) k2.2 with _ | e
    · simp [hsl]
    · cases e with
      | stories es ds => simp [hsl, getSlot_setSlot_ne _ _ _ _ hne]
      | unprocessed => simp [hsl]
      | docs d => simp [hsl]
      | error er => simp [hsl]
  · rw [if_neg hik]

/-- Folding splices over a covering key set removes the path everywhere,
provided it occurs at most once per list. -/
theorem spliceFold_not_mem (ks : List (Nat × String)) (dep : String) :
    ∀ caches : Caches,
      (∀ k, dep ∈ dependentsAt caches k → k ∈ ks) →
      (∀ k, (dependentsAt caches k).count dep ≤ 1) →
      ∀ k, dep ∉ dependentsAt (ks.foldl (fun cs k2 => spliceDependent cs k2 dep) caches) k := by
  induction ks with
  | nil =>
    intro caches hcover _ k hmem
    exact absurd (hcover k hmem) (List.not_mem_nil k)
  | cons k0 rest ih =>
    intro caches hcover hcount
    rw [List.foldl_cons]
    apply ih
    · intro k hmem
      by_cases he : k0 = k
      · subst he
        rw [splice_self_dependentsAt] at hmem
        exact absurd hmem (not_mem_spliceOne_self _ _ (hcount k0))
      · rw [splice_other_dependentsAt caches k k0 dep he] at hmem
        rcases List.mem_cons.mp (hcover k hmem) with heq | hr
        · exact absurd heq.symm he
        · exact hr
    · intro k
      by_cases he : k0 = k
      · subst he
        rw [splice_self_dependentsAt]
        exact le_trans (spliceOne_count_le _ _ _) (hcount k0)
      · rw [splice_other_dependentsAt caches k k0 dep he]
        exact hcount k

/-- Deleting a cache slot never adds a dependents edge. -/
theorem not_mem_dependentsAt_delete (cs : Caches) (sid : Nat) (p dep : String)
    (k : Nat × String) (h : dep ∉ dependentsAt cs k) :
    dep ∉ dependentsAt (deleteCacheSlot cs sid p) k := by
  rw [dependentsAt] at h ⊢
  rw [getCache_deleteCacheSlot]
  by_cases hik : k.1 = sid
  · rw [if_pos hik]
    by_cases hp : k.2 = p
    · rw [hp, getSlot_delSlot_self]
      simp
    · rw [getSlot_delSlot_ne _ _ _ hp]
      exact h
  · rw [if_neg hik]
    exact h

/-- A readable slot corresponds to a key present in the caches. -/
theorem mem_allCacheKeys_of_slot (cs : Caches) (k : Nat × String) (e : CacheEntry)
    (h : getSlot (getCache cs k.1) k.2 = some e) : k ∈ allCacheKeys cs := by
  rw [getCache] at h
  rcases hf : (cs.find? fun sc => sc.1 = k.1) with _ | sc
  · rw [hf] at h
    simp [getSlot_nil] at h
  · rw [hf] at h
    simp only [Option.map_some', Option.getD_some] at h
    have hmem : sc ∈ cs := List.mem_of_find?_eq_some hf
    have hsid : sc.1 = k.1 := by simpa using List.find?_some hf
    rw [getSlot] at h
    rcases hf2 : (sc.2.find? fun kv => kv.1 = k.2) with _ | kv
    · rw [hf2] at h
      simp at h
    · have hm2 : kv ∈ sc.2 := List.mem_of_find?_eq_some hf2
      have hk2 : kv.1 = k.2 := by simpa using List.find?_some hf2
      rw [allCacheKeys, List.mem_flatMap]
      refine ⟨sc, hmem, List.mem_map.mpr ⟨kv, hm2, ?_⟩⟩
      rw [hsid, hk2]

/-- C6 (amended): when `extractDocs` succeeds, every resolved dependency
key's `dependents` list contains the docs file's path afterwards. When a
removal `invalidate` on that docs file returns normally, the docs slot is
deleted and, provided the path occurred at most once in each `dependents`
list and every list containing it is among the re-resolved dependency
keys (both hold after a single extraction from a fresh state), no
`dependents` list contains the path any longer. -/
theorem c6_dependency_edges :
    (∀ (opts : GenOptions) (ext : Externals) (caches : Caches) (sid : Nat) (p : String)
       (caches2 : Caches) (d : DocsEntry),
      (caches.map Prod.fst).Nodup →
      extractDocs opts ext caches sid p = (caches2, Except.ok (CacheEntry.docs d)) →
      ∀ k ∈ depKeysOf opts ext caches p, p ∈ dependentsAt caches2 k) ∧
    (∀ (opts : GenOptions) (s : GenState) (sid : Nat) (ip : String) (s2 : GenState)
       (d : DocsEntry) (ks : List (Nat × String)),
      getSlot (getCache s.caches sid) (resolvePath opts.workingDir ip) =
        some (CacheEntry.docs d) →
      invalidate opts s sid ip true = (Except.ok (), s2) →
      findDependencies s.caches (d.storiesImports.map (resolvePath opts.workingDir)) =
        Except.ok ks →
      (∀ k ∈ allCacheKeys s.caches,
        (dependentsAt s.caches k).count (resolvePath opts.workingDir ip) ≤ 1) →
      (∀ k ∈ allCacheKeys s.caches,
        resolvePath opts.workingDir ip ∈ dependentsAt s.caches k → k ∈ ks) →
      getSlot (getCache s2.caches sid) (resolvePath opts.workingDir ip) = none ∧
      ∀ k, resolvePath opts.workingDir ip ∉ dependentsAt s2.caches k) := by
  constructor
  · intro opts ext caches sid p caches2 d hnd h k hk
    simp only [extractDocs] at h
    cases hv7 : opts.storyStoreV7 with
    | false => simp [hv7] at h
    | true =>
    simp only [hv7, Bool.not_true, Bool.false_eq_true, if_false] at h
    rcases hrf : ext.readFile p with msg | content
    · simp [hrf] at h
    simp only [hrf] at h
    rcases han : ext.analyze content with msg | result
    · simp [han] at h
    simp only [han] at h
    cases htpl : result.isTemplate with
    | true => simp [htpl] at h
    | false =>
    simp only [htpl, Bool.false_eq_true, if_false] at h
    rcases hfd : findDependencies caches
        (docsAbsoluteImports opts (normalizeStoryPath (relativize opts.workingDir p))
          result.imports) with msg | deps
    · simp [hfd] at h
    simp only [hfd] at h
    simp only [depKeysOf, hrf, han, hfd] at hk
    have hstories := depKey_stories caches _ deps k hnd hfd hk
    rcases hof : result.ofModule with _ | ofPath
    · simp only [hof, Option.isSome_none, Bool.false_and, Bool.false_eq_true, if_false] at h
      rcases hfi : firstImportPaths
          (deps.foldl (fun cs k2 => pushDependent cs k2 p) caches) deps with msg | si
      · simp [hfi] at h
      simp only [hfi] at h
      simp only [Prod.mk.injEq] at h
      rw [← h.1]
      exact pushFold_mem deps p k caches hk hstories
    · simp only [hof] at h
      rcases hfc : findCsfEntry opts caches deps
          (makeAbsolute ofPath (normalizeStoryPath (relativize opts.workingDir p))
            opts.workingDir) with msg | csfE
      · simp [hfc] at h
      simp only [hfc] at h
      rcases csfE with _ | fe
      · simp [Option.isSome_some, Option.isNone_none, Bool.and_self, if_true] at h
      simp only [Option.isSome_some, Option.isNone_some, Bool.and_false,
        Bool.false_eq_true, if_false] at h
      rcases hfi : firstImportPaths
          (deps.foldl (fun cs k2 => pushDependent cs k2 p) caches) deps with msg | si
      · simp [hfi] at h
      simp only [hfi] at h
      simp only [Prod.mk.injEq] at h
      rw [← h.1]
      exact pushFold_mem deps p k caches hk hstories
  · intro opts s sid ip s2 d ks hslot hinv hfd hcount hcover
    simp only [invalidate, hslot] at hinv
    simp only [hfd] at hinv
    injection hinv with hA hB
    subst hB
    constructor
    · rw [getCache_deleteCacheSlot, if_pos rfl, getSlot_delSlot_self]
    · intro k
      apply not_mem_dependentsAt_delete
      refine spliceFold_not_mem ks (resolvePath opts.workingDir ip) s.caches ?_ ?_ k
      · intro k2 hm
        rcases hsl2 : getSlot (getCache s.caches k2.1) k2.2 with _ | e
        · simp only [dependentsAt, hsl2] at hm
          cases hm
        · exact hcover k2 (mem_allCacheKeys_of_slot s.caches k2 e hsl2) hm
      · intro k2
        rcases hsl2 : getSlot (getCache s.caches k2.1) k2.2 with _ | e
        · simp [dependentsAt, hsl2]
        · exact hcount k2 (mem_allCacheKeys_of_slot s.caches k2 e hsl2)

/-- Witness for the amended C6: a fresh single extraction records the
edge, and the removal `invalidate` clears it and deletes the slot. -/
theorem c6_witness :
    "/w/d.mdx" ∈ dependentsAt c6w1 (0, "/w/s1.stories.js") ∧
    getSlot (getCache c6w3state.caches 0) (resolvePath cexOpts.workingDir "./d.mdx") = none ∧
    resolvePath cexOpts.workingDir "./d.mdx" ∉
      dependentsAt c6w3state.caches (0, "/w/s1.stories.js") :=
  ⟨c6_dependency_edges.1 cexOpts ext7 c6w0 0 "/w/d.mdx" c6w1 c6wDocs (by decide) (by decide)
      (0, "/w/s1.stories.js") (by decide),
   (c6_dependency_edges.2 cexOpts c6w2state 0 "./d.mdx" c6w3state c6wDocs
      [(0, "/w/s1.stories.js")] (by decide) (by decide) (by decide) (by decide) (by decide)).1,
   (c6_dependency_edges.2 cexOpts c6w2state 0 "./d.mdx" c6w3state c6wDocs
      [(0, "/w/s1.stories.js")] (by decide) (by decide) (by decide) (by decide) (by decide)).2
      (0, "/w/s1.stories.js")⟩

/-- The docs entry for `/w/d.mdx` as re-extracted in the C6 trace. -/
def c6traceDocs : DocsEntry :=
  { id := "D--Docs", title := "D", name := "Docs", importPath := "./d.mdx",
    storiesImports := ["./s1.stories.js", "./s2.stories.js"], tags := ["docs"] }

/-- C6 (counterexample): in the reachable trace where `s1.stories.js` was
invalidated (resetting the docs slot but leaving `s2`'s recorded edge)
and `getIndex` re-extracted the docs file (pushing a second copy of the
edge onto `s2`), the removal `invalidate` on the docs file returns
normally and deletes the slot, yet `s2.stories.js`'s dependents list
still contains the removed docs path. -/
theorem c6_counterexample :
    Reachable cexOpts ext6 c6state3 ∧
    getSlot (getCache c6state3.caches 0) "/w/d.mdx" = some (CacheEntry.docs c6traceDocs) ∧
    dependentsAt c6state3.caches (0, "/w/s2.stories.js") = ["/w/d.mdx", "/w/d.mdx"] ∧
    (invalidate cexOpts c6state3 0 "./d.mdx" true).1 = Except.ok () ∧
    getSlot (getCache c6state4.caches 0) "/w/d.mdx" = none ∧
    dependentsAt c6state4.caches (0, "/w/s2.stories.js") = ["/w/d.mdx"] :=
  ⟨Reachable.stepGetIndex (Reachable.stepInvalidate 0 "./s1.stories.js" false
      (Reachable.stepGetIndex (Reachable.init _))),
   by decide, by decide, by decide, by decide, by decide⟩
